import Mathlib

/-! Einstein Toolkit: build and deploy pipeline.

A shallow embedding of `Toolkit/TToolkit.cpp` (the NewtonScript toolkit of the
Einstein emulator) and theorems about its metadata validation
(`ReadScriptResults`), source assembly (`AppBuild`), deployment commands
(`AppInstall`, `AppRun`, `AppStop`), recent-file menu and replace-all
(`UserActionReplaceAll`).

Conventions of the embedding:

* a `char*` member that may be `nullptr` is an `Option String`; the C strings
  themselves are Lean strings;
* text appended to the terminal buffer is kept as the list of appended chunks,
  one entry per `PrintStd` call, oldest first;
* interned symbols of the interpreter are represented by their names;
* the text of the editor is a list of characters and positions count
  characters; a loop without a bound in the source takes a number of rounds as
  fuel and returns `none` when the rounds are used up.
-/

namespace Einstein

/-! ## Interpreter values -/

/-- Modelled from the spec: the dynamic value type of the embedded interpreter
(`newtRef`, declared in the NEWT/64 headers), a tagged variant with the kinds
the validator distinguishes. `nil` also stands for an unset binding. -/
inductive NewtRef where
  | nil
  | integer (n : Int)
  | string (s : String)
  | symbol (name : String)
  | array (slots : List NewtRef)
  | frame (slots : List (String × NewtRef))

/-- Modelled from the spec: type predicate `isFrame` (`NewtRefIsFrame`). -/
def NewtRefIsFrame : NewtRef → Bool
  | .frame _ => true
  | _ => false

/-- Modelled from the spec: type predicate `isString` (`NewtRefIsString`). -/
def NewtRefIsString : NewtRef → Bool
  | .string _ => true
  | _ => false

/-- Modelled from the spec: type predicate `isArray` (`NewtRefIsArray`). -/
def NewtRefIsArray : NewtRef → Bool
  | .array _ => true
  | _ => false

/-- Modelled from the spec: type predicate `isSymbolicIdentifier`
(`NewtRefIsSymbol`). -/
def NewtRefIsSymbol : NewtRef → Bool
  | .symbol _ => true
  | _ => false

/-- Modelled from the spec: the text of a string value (`NewtRefToString`); the
source calls it on string values only. -/
def NewtRefToString : NewtRef → String
  | .string s => s
  | _ => ""

/-- Modelled from the spec: the name of a symbol value (`NewtSymbolGetName`);
the source calls it on symbol values only. -/
def NewtSymbolGetName : NewtRef → String
  | .symbol name => name
  | _ => ""

/-- Modelled from the spec: `getField(record, name)` (`NsGetSlot`): the value of
the first slot with that name, `nil` when there is none. -/
def NsGetSlot (frame : NewtRef) (slot : String) : NewtRef :=
  match frame with
  | .frame slots =>
    match slots.find? (fun p => p.1 == slot) with
    | some p => p.2
    | none => .nil
  | _ => .nil

/-- Modelled from the spec: `getArrayElement(array, index)`
(`NewtGetArraySlot`): `nil` when the index is out of range. -/
def NewtGetArraySlot (r : NewtRef) (p : Nat) : NewtRef :=
  match r with
  | .array slots => slots.getD p .nil
  | _ => .nil

/-- The global bindings of the interpreter session, newest first. -/
abbrev Globals := List (String × NewtRef)

/-- Modelled from the spec: `getGlobal(name) -> value|unset`
(`NsGetGlobalVar`). -/
def NsGetGlobalVar (globals : Globals) (name : String) : NewtRef :=
  match globals.find? (fun p => p.1 == name) with
  | some p => p.2
  | none => .nil

/-- Modelled from the spec: `setGlobal(name, value)` (`NcDefGlobalVar`). -/
def NcDefGlobalVar (globals : Globals) (name : String) (value : NewtRef) : Globals :=
  (name, value) :: globals

/-! ## The toolkit object -/

/-- The members of `TToolkit` that the pipeline owns: the four descriptor
fields and the text of the terminal buffer (`gTerminalBuffer`). -/
structure TToolkit where
  mPkgPath : Option String
  mPkgName : Option String
  mPkgSymbol : Option String
  mPkgLabel : Option String
  terminal : List String
  deriving DecidableEq, Repr

/-- Function `TToolkit::PrintStd`: append the text to the terminal buffer. -/
def PrintStd (tk : TToolkit) (text : String) : TToolkit :=
  { tk with terminal := tk.terminal ++ [text] }

/-- Function `TToolkit::PrintErr`: errors are printed like regular messages. -/
def PrintErr (tk : TToolkit) (text : String) : TToolkit :=
  PrintStd tk text

/-- Function `TToolkit::SetPkgPath`: the member becomes a copy of `name`, or
null. The source returns early when `name` is the stored pointer itself, which
leaves the stored text as it is. -/
def SetPkgPath (tk : TToolkit) (name : Option String) : TToolkit :=
  if name = tk.mPkgPath then tk
  else
    let tk := { tk with mPkgPath := none }
    match name with
    | some n => { tk with mPkgPath := some n }
    | none => tk

/-- Function `TToolkit::SetPkgName`. -/
def SetPkgName (tk : TToolkit) (name : Option String) : TToolkit :=
  if name = tk.mPkgName then tk
  else
    let tk := { tk with mPkgName := none }
    match name with
    | some n => { tk with mPkgName := some n }
    | none => tk

/-- Function `TToolkit::SetPkgSymbol`. -/
def SetPkgSymbol (tk : TToolkit) (name : Option String) : TToolkit :=
  if name = tk.mPkgSymbol then tk
  else
    let tk := { tk with mPkgSymbol := none }
    match name with
    | some n => { tk with mPkgSymbol := some n }
    | none => tk

/-- Function `TToolkit::SetPkgLabel`. -/
def SetPkgLabel (tk : TToolkit) (name : Option String) : TToolkit :=
  if name = tk.mPkgLabel then tk
  else
    let tk := { tk with mPkgLabel := none }
    match name with
    | some n => { tk with mPkgLabel := some n }
    | none => tk

/-- Function `TToolkit::ReadScriptResults`: extract the project settings from the
interpreter environment; `-1` with the reason printed when a resource is
missing. -/
def ReadScriptResults (globals : Globals) (tk : TToolkit) : Int × TToolkit :=
  let newt := NsGetGlobalVar globals "newt"
  if !NewtRefIsFrame newt then
    (-1, PrintErr tk "Error: can't build package, 'newt' not defined!\n")
  else
    let pkgPath := NsGetSlot newt "pkgPath"
    let tk :=
      if NewtRefIsString pkgPath then SetPkgPath tk (some (NewtRefToString pkgPath))
      else tk
    let app := NsGetSlot newt "app"
    if !NewtRefIsFrame app then
      (-1, PrintErr tk "Error: can't build package, 'newt.app' not defined!\n")
    else
      let pkgName := NsGetSlot app "name"
      if NewtRefIsString pkgName then
        let tk := SetPkgName tk (some (NewtRefToString pkgName))
        let pkgParts := NsGetSlot app "parts"
        if !NewtRefIsArray pkgParts then
          (-1, PrintErr tk "Error: can't build package, 'newt.app.parts' not defined!\n")
        else
          let pkgPart0 := NewtGetArraySlot pkgParts 0
          if !NewtRefIsFrame pkgPart0 then
            (-1, PrintErr tk "Error: can't build package, 'newt.app.parts[0]' not defined!\n")
          else
            let data := NsGetSlot pkgPart0 "data"
            if !NewtRefIsFrame data then
              (-1, PrintErr tk
                "Error: can't build package, 'newt.app.parts[0].data' not defined!\n")
            else
              let pkgSymbol := NsGetSlot data "app"
              if NewtRefIsSymbol pkgSymbol then
                let tk := SetPkgSymbol tk (some (NewtSymbolGetName pkgSymbol))
                let pkgLabel := NsGetSlot data "text"
                let tk :=
                  if NewtRefIsString pkgLabel then
                    SetPkgLabel tk (some (NewtRefToString pkgLabel))
                  else SetPkgLabel tk (some "<unknown>")
                (0, PrintStd tk "Info: package compiled.\n")
              else
                (-1, PrintErr tk
                  "Error: can't build package, package symbol not defined! Expected in 'newt.app.parts[0].data'.\n")
      else
        (-1, PrintErr tk "Error: can't build package, 'newt.app.name' not defined!\n")

/-! ## The result graph, as the specification names its parts -/

/-- The root binding `newt` of the result graph. -/
def graphRoot (globals : Globals) : NewtRef := NsGetGlobalVar globals "newt"

/-- The optional slot `newt.pkgPath`. -/
def graphPkgPath (globals : Globals) : NewtRef := NsGetSlot (graphRoot globals) "pkgPath"

/-- The slot `newt.app`. -/
def graphApp (globals : Globals) : NewtRef := NsGetSlot (graphRoot globals) "app"

/-- The slot `newt.app.name`. -/
def graphName (globals : Globals) : NewtRef := NsGetSlot (graphApp globals) "name"

/-- The slot `newt.app.parts`. -/
def graphParts (globals : Globals) : NewtRef := NsGetSlot (graphApp globals) "parts"

/-- Element 0 of `newt.app.parts`. -/
def graphPart0 (globals : Globals) : NewtRef := NewtGetArraySlot (graphParts globals) 0

/-- The slot `newt.app.parts[0].data`. -/
def graphData (globals : Globals) : NewtRef := NsGetSlot (graphPart0 globals) "data"

/-- The slot `newt.app.parts[0].data.app`. -/
def graphSymbol (globals : Globals) : NewtRef := NsGetSlot (graphData globals) "app"

/-- The optional slot `newt.app.parts[0].data.text`. -/
def graphText (globals : Globals) : NewtRef := NsGetSlot (graphData globals) "text"

/-- The seven required conditions, in the order of the specification. -/
def requiredConditions (globals : Globals) : List Bool :=
  [ NewtRefIsFrame (graphRoot globals),
    NewtRefIsFrame (graphApp globals),
    NewtRefIsString (graphName globals),
    NewtRefIsArray (graphParts globals),
    NewtRefIsFrame (graphPart0 globals),
    NewtRefIsFrame (graphData globals),
    NewtRefIsSymbol (graphSymbol globals) ]

/-- The diagnostic the source prints for each required condition, in the same
order. -/
def diagnostics : List String :=
  [ "Error: can't build package, 'newt' not defined!\n",
    "Error: can't build package, 'newt.app' not defined!\n",
    "Error: can't build package, 'newt.app.name' not defined!\n",
    "Error: can't build package, 'newt.app.parts' not defined!\n",
    "Error: can't build package, 'newt.app.parts[0]' not defined!\n",
    "Error: can't build package, 'newt.app.parts[0].data' not defined!\n",
    "Error: can't build package, package symbol not defined! Expected in 'newt.app.parts[0].data'.\n" ]

/-- Condition `k` (counted from 0) is the first one that does not hold. -/
def firstFailureAt (globals : Globals) (k : Nat) : Prop :=
  (requiredConditions globals).getD k true = false ∧
    ∀ j, j < k → (requiredConditions globals).getD j true = true

/-- The toolkit after the optional path override of a graph whose root is a
frame. -/
def afterPath (globals : Globals) (tk : TToolkit) : TToolkit :=
  if NewtRefIsString (graphPkgPath globals) then
    SetPkgPath tk (some (NewtRefToString (graphPkgPath globals)))
  else tk

/-- The toolkit after the path override and the name have been stored. -/
def afterName (globals : Globals) (tk : TToolkit) : TToolkit :=
  SetPkgName (afterPath globals tk) (some (NewtRefToString (graphName globals)))

/-- The label the source stores for a graph: the text of `data.text` when that
is a string, otherwise the placeholder. -/
def labelOf (globals : Globals) : String :=
  if NewtRefIsString (graphText globals) then NewtRefToString (graphText globals)
  else "<unknown>"

/-! ## The build and deploy pipeline -/

/-- Modelled from the spec: the current script source (`TTkScript`, declared
in `TTkScript.h`): `filePath()` (`GetFilename`, null for an unnamed script),
`readMemoryBuffer()` (`DupSourceCode`) and `isDirty()` (`IsDirty`). -/
structure TTkScript where
  filename : Option String
  sourceCode : String
  dirty : Bool
  deriving DecidableEq, Repr

/-- The process state the pipeline touches: the working directory and the
files, as pairs of path and content (a path that is not listed has no file). -/
structure OS where
  cwd : String
  files : List (String × String)
  deriving DecidableEq, Repr

/-- The calls the pipeline makes to its collaborators (interpreter, operating
system, script object, platform manager and host application), in the order
made. -/
inductive Event where
  | NewtInit
  | RegisterToolkitScriptExtensions
  | Save
  | remove (path : String)
  | chdir (path : String)
  | NVMInterpretStr (src : String)
  | NsGetGlobalVar (name : String)
  | ReadScriptResults (ret : Int)
  | NcSend0 (selector : String)
  | NcDefGlobalVar (name : String)
  | NewtCleanup
  | EvalNewtonScript (cmd : String)
  | InstallPackagesFromURI (path : Option String)
  deriving DecidableEq, Repr

/-- The toolkit together with everything it acts on. -/
structure World where
  tk : TToolkit
  mCurrentScript : TTkScript
  os : OS
  globals : Globals
  trace : List Event

/-- The collaborators whose code is outside `TToolkit.cpp`, taken as
parameters: the source fragments of `TToolkitPrototype`, the FLTK file name
helpers, the preferences directory, the script object and the interpreter. -/
structure Host where
  /-- Fragment `TToolkitPrototype::NewtonDefs21`. -/
  NewtonDefs21 : String
  /-- Fragment `TToolkitPrototype::BytecodeDefs`. -/
  BytecodeDefs : String
  /-- Fragment `TToolkitPrototype::ToolkitDefs`. -/
  ToolkitDefs : String
  /-- Fragment `TToolkitPrototype::DefaultPackage`. -/
  DefaultPackage : String
  /-- Fragment `TToolkitPrototype::ToolkitLaunch`. -/
  ToolkitLaunch : String
  /-- Fragment `TToolkitPrototype::ToolkitDone`. -/
  ToolkitDone : String
  /-- The path with its extension replaced (`fl_filename_setext`). -/
  fl_filename_setext : String → String → String
  /-- The offset at which the file name part of a path starts
  (`fl_filename_name`). -/
  fl_filename_name : String → Nat
  /-- The per-user data directory (`Fl_Preferences::getUserdataPath`). -/
  getUserdataPath : String
  /-- The bindings the toolkit registers with a fresh interpreter. -/
  RegisterToolkitScriptExtensions : Globals → Globals
  /-- The script object persisting itself (`TTkScript::Save`): the new dirty
  flag and the new process state. -/
  Save : TTkScript → OS → Bool × OS
  /-- The interpreter running a source text: new bindings, new process state
  and the error status. -/
  NVMInterpretStr : String → Globals → OS → Globals × OS × Int
  /-- The interpreter sending a message without arguments to a receiver. -/
  NcSend0 : NewtRef → String → Globals → OS → Globals × OS
  /-- Whether the operating system lets the process enter a directory, that
  is, whether `chdir` succeeds. -/
  chdirOk : String → OS → Bool
  /-- Whether the operating system deletes the file at a path, that is,
  whether `::remove` succeeds. -/
  removeOk : String → OS → Bool
  /-- What a `char` buffer on the stack holds before anything is written to
  it. -/
  uninitialized : String

/-- What `%s` prints for a `char*` argument; a null pointer is shown the way
the C libraries of the supported platforms show it. -/
def fmtS : Option String → String
  | some s => s
  | none => "(null)"

/-- The `%s` directives of a format filled in from the arguments, in order. -/
def sprintfAux : List Char → List (Option String) → List Char
  | '%' :: 's' :: rest, a :: args => (fmtS a).data ++ sprintfAux rest args
  | c :: rest, args => c :: sprintfAux rest args
  | [], _ => []

/-- The text `sprintf` writes for a format whose only directives are `%s`. -/
def sprintf (format : String) (args : List (Option String)) : String :=
  ⟨sprintfAux format.data args⟩

/-- Append an event to the log of calls. -/
def World.log (w : World) (e : Event) : World :=
  { w with trace := w.trace ++ [e] }

/-- Text printed to the terminal by a step of the pipeline. -/
def World.PrintStd (w : World) (text : String) : World :=
  { w with tk := Einstein.PrintStd w.tk text }

/-- Error text printed to the terminal by a step of the pipeline. -/
def World.PrintErr (w : World) (text : String) : World :=
  { w with tk := Einstein.PrintErr w.tk text }

/-- The size of the path buffers, `FL_PATH_MAX` of the FLTK headers. -/
def FL_PATH_MAX : Nat := 2048

/-- Call of `getcwd(buf, size)`: the working directory when its path and the
terminating NUL fit in `size` bytes, `none` when the call fails and leaves the
buffer as it was. -/
def getcwd (os : OS) (size : Nat) : Option String :=
  if os.cwd.utf8ByteSize + 1 ≤ size then some os.cwd else none

/-- The text a C function reads from `std::string::c_str()`: the characters
before the first NUL. -/
def c_str (s : String) : String :=
  String.mk (s.data.takeWhile (fun c => c != Char.ofNat 0))

/-- Call of `chdir`, whose status the source ignores: the working directory
changes when the operating system lets the process enter the directory, and
stays as it is when the call fails. -/
def chdir (h : Host) (w : World) (path : String) : World :=
  (if h.chdirOk path w.os then { w with os := { w.os with cwd := path } } else w).log
    (.chdir path)

/-- Call of `::remove`, whose status the source ignores: the file at the path
is deleted when the operating system does so, and the files stay as they are
when the call fails. -/
def remove (h : Host) (w : World) (path : String) : World :=
  (if h.removeOk path w.os then
    { w with os := { w.os with files := w.os.files.filter (fun f => f.1 != path) } }
  else w).log (.remove path)

/-- The content `std::ifstream` reads from a path: nothing when the file cannot
be opened. -/
def readFile (os : OS) (path : String) : String :=
  match os.files.find? (fun f => f.1 == path) with
  | some f => f.2
  | none => ""

/-- The call `mCurrentScript->Save()`: the script keeps its file name and its
text; the host decides the new dirty flag and the new file system. -/
def scriptSave (h : Host) (w : World) : World :=
  let r := h.Save w.mCurrentScript w.os
  ({ w with mCurrentScript := { w.mCurrentScript with dirty := r.1 }, os := r.2 }).log .Save

/-- Function `TToolkit::SetTempPkgPath`: a temporary package path for unnamed
scripts. -/
def SetTempPkgPath (h : Host) (w : World) : World :=
  let buf := h.getUserdataPath
  let buf := buf ++ "tmp.pkg"
  let w := { w with tk := SetPkgPath w.tk (some buf) }
  remove h w buf

/-- Query of an output channel binding, forwarded to the terminal when it is a
string (`NsGetGlobalVar`, `NewtRefIsString`, `PrintStd` or `PrintErr`). -/
def forwardChannel (w : World) (name : String) : World :=
  let ref := NsGetGlobalVar w.globals name
  let w := w.log (.NsGetGlobalVar name)
  if NewtRefIsString ref then w.PrintStd (NewtRefToString ref) else w

/-- First part of `TToolkit::AppBuild` (from `std::string src` to the append of
`ToolkitDone`): set the package path and assemble the compilation unit. -/
def assembleSource (h : Host) (w : World) : World × String :=
  let src := ""
  let src := src ++ h.NewtonDefs21
  let src := src ++ h.BytecodeDefs
  let src := src ++ h.ToolkitDefs
  let src := src ++ h.DefaultPackage
  let w :=
    match w.mCurrentScript.filename with
    | some f => { w with tk := SetPkgPath w.tk (some (h.fl_filename_setext f ".pkg")) }
    | none => SetTempPkgPath h w
  let buf := sprintf "newt.pkgPath := \"%s\";\n" [w.tk.mPkgPath]
  let src := src ++ buf
  let src := src ++ h.ToolkitLaunch
  let (w, src) :=
    match w.mCurrentScript.filename with
    | some f =>
      let w := w.PrintStd "Compiling file...\n"
      let w := if w.mCurrentScript.dirty then scriptSave h w else w
      let str := readFile w.os f
      (w, src ++ str)
    | none =>
      let w := w.PrintStd "Compiling inline...\n"
      let sourceCode := w.mCurrentScript.sourceCode
      (w, src ++ sourceCode)
  let src := src ++ h.ToolkitDone
  (w, src)

/-- The block `if (current_filename)` of `TToolkit::AppBuild`: when the script
has a file path, `chdir` to the path cut at the start of its file name part. -/
def enterScriptDirectory (h : Host) (w : World) : World :=
  match w.mCurrentScript.filename with
  | some current_filename =>
    chdir h w (String.mk (current_filename.data.take (h.fl_filename_name current_filename)))
  | none => w

/-- Second part of `TToolkit::AppBuild` (from `getcwd` to the forwarding of
`_STDERR_`): capture the working directory in `previous_path`, enter the
directory of the script, hand `src.c_str()` to the interpreter, `chdir` to
`previous_path` and forward the two output channels. The event of the
interpreter call records `src` itself. -/
def interpretSource (h : Host) (w : World) (src : String) : World :=
  let previous_path := (getcwd w.os (FL_PATH_MAX - 1)).getD h.uninitialized
  let w := enterScriptDirectory h w
  let r := h.NVMInterpretStr (c_str src) w.globals w.os
  let w := ({ w with globals := r.1, os := r.2.1 }).log (.NVMInterpretStr src)
  let w := chdir h w previous_path
  let w := forwardChannel w "_STDOUT_"
  forwardChannel w "_STDERR_"

/-- Last part of `TToolkit::AppBuild` (from the call of `ReadScriptResults` to
`NewtCleanup`): validate, write the package, query the channels again and shut
the interpreter down. -/
def emitPackage (h : Host) (w : World) : World :=
  let r := ReadScriptResults w.globals w.tk
  let w := ({ w with tk := r.2 }).log (.ReadScriptResults r.1)
  let w :=
    if r.1 = 0 then
      let newt := NsGetGlobalVar w.globals "newt"
      let w := w.log (.NsGetGlobalVar "newt")
      let s := h.NcSend0 newt "writePkg" w.globals w.os
      ({ w with globals := s.1, os := s.2 }).log (.NcSend0 "writePkg")
    else w
  let w := ({ w with globals := NcDefGlobalVar w.globals "_STDERR_" (.string "") }).log
    (.NcDefGlobalVar "_STDERR_")
  let w := ({ w with globals := NcDefGlobalVar w.globals "_STDOUT_" (.string "") }).log
    (.NcDefGlobalVar "_STDOUT_")
  let w := forwardChannel w "_STDOUT_"
  let w := forwardChannel w "_STDERR_"
  ({ w with globals := [] }).log .NewtCleanup

/-- The start of `TToolkit::AppBuild`: the terminal is cleared, the interpreter
initialised and the toolkit extensions registered. -/
def startInterpreter (h : Host) (w : World) : World :=
  let w := { w with tk := { w.tk with terminal := [] } }
  let w := ({ w with globals := [] }).log .NewtInit
  ({ w with globals := h.RegisterToolkitScriptExtensions w.globals }).log
    .RegisterToolkitScriptExtensions

/-- Function `TToolkit::AppBuild`: grab the current script and build a package
file. -/
def AppBuild (h : Host) (w : World) : World :=
  let w := startInterpreter h w
  let (w, src) := assembleSource h w
  let w := interpretSource h w src
  emitPackage h w

/-- The world at the point where `AppBuild` calls `ReadScriptResults`. -/
def beforeValidation (h : Host) (w : World) : World :=
  let a := assembleSource h (startInterpreter h w)
  interpretSource h a.1 a.2

/-- The world in which `AppBuild` calls the interpreter: the source is
assembled and the block `if (current_filename)` has run. -/
def atInterpretation (h : Host) (w : World) : World :=
  enterScriptDirectory h (assembleSource h (startInterpreter h w)).1

/-- The content of `previous_path` in `AppBuild`: what `getcwd` wrote there, or
what the buffer held when `getcwd` failed. -/
def previousPath (h : Host) (w : World) : String :=
  (getcwd (assembleSource h (startInterpreter h w)).1.os (FL_PATH_MAX - 1)).getD h.uninitialized

/-- The call of the interpreter in `AppBuild`, with its result: the text read
from `src.c_str()` is run in the world `atInterpretation`. -/
def interpreterRun (h : Host) (w : World) : Globals × OS × Int :=
  h.NVMInterpretStr (c_str (assembleSource h (startInterpreter h w)).2)
    (atInterpretation h w).globals (atInterpretation h w).os

/-- The package path `AppBuild` sets before it assembles the source: the script
path with the extension `.pkg`, or the temporary path of an unnamed script. -/
def pkgPathOf (h : Host) (w : World) : String :=
  match w.mCurrentScript.filename with
  | some f => h.fl_filename_setext f ".pkg"
  | none => h.getUserdataPath ++ "tmp.pkg"

/-- The user source `AppBuild` embeds: the content of the script file, read
after the script was saved when it was dirty, or the editor text of an unnamed
script. -/
def userSourceOf (h : Host) (w : World) : String :=
  match w.mCurrentScript.filename with
  | some f => readFile (if w.mCurrentScript.dirty then (h.Save w.mCurrentScript w.os).2
      else w.os) f
  | none => w.mCurrentScript.sourceCode

/-- The world `UserActionInstall` and `UserActionRun` deploy from: the script
saved when it has a file, then built. -/
def afterBuild (h : Host) (w : World) : World :=
  AppBuild h (if w.mCurrentScript.filename.isSome then scriptSave h w else w)

/-- Function `TToolkit::AppInstall`: uninstall the current package on the target, then
install the package that was just created. -/
def AppInstall (w : World) : World :=
  let w := w.PrintStd "Installing...\n"
  let cmd := "if HasSlot(GetRoot(), '|%s|) then begin\n" ++
    "  GetRoot().|%s|:Close();\n" ++
    "  SafeRemovePackage(GetPkgRef(\"%s\", GetStores()[0]))\n" ++
    "end;\n"
  let buf := sprintf cmd [w.tk.mPkgSymbol, w.tk.mPkgSymbol, w.tk.mPkgName]
  let w := w.log (.EvalNewtonScript buf)
  w.log (.InstallPackagesFromURI w.tk.mPkgPath)

/-- Function `TToolkit::AppRun`: open the app on the target. -/
def AppRun (w : World) : World :=
  let w := w.PrintStd "Run...\n"
  let cmd := "GetRoot().|%s|:Open();\n"
  let buf := sprintf cmd [w.tk.mPkgSymbol]
  w.log (.EvalNewtonScript buf)

/-- Function `TToolkit::AppStop`: close the app on the target. -/
def AppStop (w : World) : World :=
  let w := w.PrintStd "Stop...\n"
  let cmd := "if HasSlot(GetRoot(), '|%s|) then begin\n" ++
    "  GetRoot().|%s|:Close();\n" ++
    "end;\n"
  let buf := sprintf cmd [w.tk.mPkgSymbol, w.tk.mPkgSymbol]
  w.log (.EvalNewtonScript buf)

/-- Function `TToolkit::UserActionBuild`. -/
def UserActionBuild (h : Host) (w : World) : World :=
  let w := if w.mCurrentScript.filename.isSome then scriptSave h w else w
  AppBuild h w

/-- Function `TToolkit::UserActionInstall`. -/
def UserActionInstall (h : Host) (w : World) : World :=
  let w := if w.mCurrentScript.filename.isSome then scriptSave h w else w
  let w := AppBuild h w
  AppInstall w

/-- Function `TToolkit::UserActionRun`. -/
def UserActionRun (h : Host) (w : World) : World :=
  let w := if w.mCurrentScript.filename.isSome then scriptSave h w else w
  let w := AppBuild h w
  let w := AppInstall w
  AppRun w

/-- Function `TToolkit::UserActionStop`. -/
def UserActionStop (w : World) : World :=
  AppStop w

/-- The source texts `src` submitted to the interpreter, in order, each as
assembled (the interpreter is handed `src.c_str()`). -/
def submitted : List Event → List String
  | [] => []
  | .NVMInterpretStr src :: es => src :: submitted es
  | _ :: es => submitted es

/-- The source texts as the interpreter reads them, in order: each `src` up to
its first NUL character. -/
def interpreted (trace : List Event) : List String :=
  (submitted trace).map c_str

/-- The messages sent to the root object, in order. -/
def messagesSent : List Event → List String
  | [] => []
  | .NcSend0 selector :: es => selector :: messagesSent es
  | _ :: es => messagesSent es

/-- The transmissions to the target: the commands given to the platform
manager and the install requests given to the host application, in order. -/
def transmissions : List Event → List Event
  | [] => []
  | .EvalNewtonScript cmd :: es => .EvalNewtonScript cmd :: transmissions es
  | .InstallPackagesFromURI path :: es => .InstallPackagesFromURI path :: transmissions es
  | _ :: es => transmissions es

/-- What the source reads of a slot: a kind test, or the text of a string or
symbol slot (`none` when the slot is of another kind). -/
inductive Seen where
  | kind (holds : Bool)
  | text (value : Option String)
  deriving DecidableEq, Repr

/-- The text of a value that is a string. -/
def stringOf (r : NewtRef) : Option String :=
  if NewtRefIsString r then some (NewtRefToString r) else none

/-- The name of a value that is a symbol. -/
def symbolOf (r : NewtRef) : Option String :=
  if NewtRefIsSymbol r then some (NewtSymbolGetName r) else none

/-- What each of the seven validation steps examines of the graph, step by
step: step 1 the root, step 2 `pkgPath` and `app`, step 3 `app.name`, step 4
`app.parts`, step 5 `parts[0]`, step 6 `data`, step 7 `data.app`. -/
def examinedBy (globals : Globals) : List (List Seen) :=
  [ [.kind (NewtRefIsFrame (graphRoot globals))],
    [.text (stringOf (graphPkgPath globals)), .kind (NewtRefIsFrame (graphApp globals))],
    [.text (stringOf (graphName globals))],
    [.kind (NewtRefIsArray (graphParts globals))],
    [.kind (NewtRefIsFrame (graphPart0 globals))],
    [.kind (NewtRefIsFrame (graphData globals))],
    [.text (symbolOf (graphSymbol globals))] ]

/-- Everything steps `1..k` examine of the graph. -/
def examinedUpTo (globals : Globals) (k : Nat) : List Seen :=
  ((examinedBy globals).take k).flatten

/-- A toolkit on which no package has been built yet. -/
def emptyToolkit : TToolkit :=
  { mPkgPath := none, mPkgName := none, mPkgSymbol := none, mPkgLabel := none, terminal := [] }

/-- A toolkit holding the descriptor of an earlier build. -/
def builtToolkit : TToolkit :=
  { mPkgPath := some "/home/u/old.pkg", mPkgName := some "Old:SIG",
    mPkgSymbol := some "Old:SIG", mPkgLabel := some "Old", terminal := [] }

/-- The `data` frame of a complete sample graph. -/
def sampleData : NewtRef :=
  .frame [("app", .symbol "Hello:SIG"), ("text", .string "Hello")]

/-- A complete result graph: every required slot present, with a path override
and a label. -/
def sampleGraph : Globals :=
  [("newt", .frame
    [("pkgPath", .string "/tmp/hello.pkg"),
     ("app", .frame
       [("name", .string "Hello:SIG"),
        ("parts", .array [.frame [("data", sampleData)]])])])]

/-- A complete result graph without the optional slots `pkgPath` and `text`. -/
def plainGraph : Globals :=
  [("newt", .frame
    [("app", .frame
       [("name", .string "Plain:SIG"),
        ("parts", .array [.frame [("data", .frame [("app", .symbol "Plain:SIG")])]])])])]

/-- A result graph with a path override and no `app` slot. -/
def pathOnlyGraph : Globals :=
  [("newt", .frame [("pkgPath", .string "/tmp/new.pkg")])]

/-- A result graph with a path override, a name, and no `parts` slot. -/
def nameOnlyGraph : Globals :=
  [("newt", .frame
    [("pkgPath", .string "/tmp/new.pkg"),
     ("app", .frame [("name", .string "New:SIG")])])]

/-- Like `pathOnlyGraph`, with another `app` value that is no frame either and
more bindings besides. -/
def pathOnlyGraph2 : Globals :=
  [("other", .integer 7), ("newt", .frame
    [("pkgPath", .string "/tmp/new.pkg"), ("app", .array [sampleData]),
     ("extra", sampleData)])]

/-- A host for the examples: short fragments, a script object that writes its
text to its file, and an interpreter whose run leaves the complete graph
`plainGraph` and some standard output. -/
def sampleHost : Host where
  NewtonDefs21 := "// newton defs\n"
  BytecodeDefs := "// bytecode defs\n"
  ToolkitDefs := "// toolkit defs\n"
  DefaultPackage := "newt.app := nil;\n"
  ToolkitLaunch := "// launch\n"
  ToolkitDone := "// done\n"
  fl_filename_setext := fun path extension =>
    String.mk ((path.data.reverse.dropWhile (fun c => c != '.')).drop 1).reverse ++ extension
  fl_filename_name := fun path => (path.data.reverse.dropWhile (fun c => c != '/')).length
  getUserdataPath := "/home/u/.einstein/"
  RegisterToolkitScriptExtensions := fun globals => globals
  Save := fun script os =>
    match script.filename with
    | some f => (false, { os with files := (f, script.sourceCode) :: os.files })
    | none => (script.dirty, os)
  NVMInterpretStr := fun _ _ os => (("_STDOUT_", .string "hello\n") :: plainGraph, os, 0)
  NcSend0 := fun _ _ globals os =>
    (globals, { os with files := ("/home/u/hello.pkg", "package") :: os.files })
  chdirOk := fun _ _ => true
  removeOk := fun _ _ => true
  uninitialized := ""

/-- A host whose interpreter run leaves no `newt` binding. -/
def failingHost : Host :=
  { sampleHost with NVMInterpretStr := fun _ _ os => ([("_STDERR_", .string "oops\n")], os, -1) }

/-- A world with a dirty script that has a file, and the descriptor of an
earlier build. -/
def sampleWorld : World where
  tk := builtToolkit
  mCurrentScript := { filename := some "/home/u/hello.ns", sourceCode := "app();\n", dirty := true }
  os := { cwd := "/", files := [("/home/u/old.pkg", "old package")] }
  globals := []
  trace := []

/-- A world with an unnamed script. -/
def unnamedWorld : World :=
  { sampleWorld with
    mCurrentScript := { filename := none, sourceCode := "app();\n", dirty := true } }

/-- The directories given to `chdir`, in order. -/
def directoryChanges : List Event → List String
  | [] => []
  | .chdir path :: es => path :: directoryChanges es
  | _ :: es => directoryChanges es

/-- A host like `sampleHost` whose package writer prints to standard output. -/
def chattyHost : Host :=
  { sampleHost with
    NcSend0 := fun _ _ globals os =>
      (("_STDOUT_", .string "package written\n") :: globals, os) }

/-- A world whose script has a file path, is not dirty, and whose file does not
exist. -/
def missingFileWorld : World :=
  { sampleWorld with
    mCurrentScript :=
      { filename := some "/home/u/gone.ns", sourceCode := "app();\n", dirty := false } }

/-- A world without a stored descriptor whose script has a file. -/
def freshWorld : World :=
  { sampleWorld with tk := emptyToolkit }

/-- A world whose stored symbol has 69 characters. -/
def longSymbolWorld : World :=
  { sampleWorld with
    tk := { builtToolkit with
      mPkgSymbol := some (String.mk (List.replicate 65 'x') ++ ":SIG"), mPkgName := some "" } }

/-- A world with an unnamed script and a temporary package left by an earlier
build. -/
def staleTempWorld : World :=
  { unnamedWorld with
    os := { cwd := "/", files := [("/home/u/.einstein/tmp.pkg", "stale"),
      ("/home/u/old.pkg", "old package")] } }

/-- A host like `sampleHost` whose interpreter run leaves `sampleGraph`, and
whose package writer answers `writePkg` alone, writing the package at the path
in the slot `pkgPath` of the receiver. -/
def writerHost : Host :=
  { sampleHost with
    NVMInterpretStr := fun _ _ os => (sampleGraph, os, 0)
    NcSend0 := fun receiver selector globals os =>
      match selector == "writePkg", stringOf (NsGetSlot receiver "pkgPath") with
      | true, some path => (globals, { os with files := (path, "package") :: os.files })
      | _, _ => (globals, os) }

/-- A host like `sampleHost` whose interpreter prints the text it is given and
the directory it runs in to standard output, besides leaving `plainGraph`. -/
def echoHost : Host :=
  { sampleHost with
    NVMInterpretStr := fun src _ os =>
      (("_STDOUT_", .string (os.cwd ++ "\n" ++ src)) :: plainGraph, os, 0) }

/-- A world whose script file, already saved, holds a NUL character after its
first line. -/
def nulFileWorld : World :=
  { sampleWorld with
    mCurrentScript :=
      { filename := some "/home/u/hello.ns", sourceCode := "app();\n", dirty := false }
    os := { cwd := "/", files :=
      [("/home/u/hello.ns", "app();\n" ++ String.singleton (Char.ofNat 0) ++ "more();\n")] } }

/-- A host like `echoHost` on which the directory "/mnt/usb/" cannot be
entered any more. -/
def detachedHost : Host :=
  { echoHost with chdirOk := fun path _ => path != "/mnt/usb/" }

/-- The sample world, started in the directory "/mnt/usb/". -/
def detachedWorld : World :=
  { sampleWorld with os := { sampleWorld.os with cwd := "/mnt/usb/" } }

/-- A host like `sampleHost` on which no file can be deleted. -/
def lockedHost : Host :=
  { sampleHost with removeOk := fun _ _ => false }

/-! ## The recent-file menu -/

/-- The two bits of `Fl_Menu_Item::flags` the toolkit sets and clears:
`FL_MENU_INVISIBLE` and `FL_MENU_DIVIDER`. -/
structure MenuFlags where
  invisible : Bool
  divider : Bool
  deriving DecidableEq, Repr

/-- The fields of an `Fl_Menu_Item` of the recent-file menu: the file path kept
as user data, the label (a C string, kept as its bytes) and the flags. -/
structure Fl_Menu_Item where
  user_data_ : Option String
  text : Option (List Nat)
  flags : MenuFlags
  deriving DecidableEq, Repr

/-- An item with null pointers, read where a list has no entry. -/
def nullItem : Fl_Menu_Item :=
  { user_data_ := none, text := none, flags := { invisible := false, divider := false } }

/-- The recent-file menu `wTKOpenRecentMenu` (an array of eight items), the
entries of `Toolkit/RecentFiles` in the application preferences as last
written, and the number of times they were written. -/
structure RecentMenu where
  wTKOpenRecentMenu : List Fl_Menu_Item
  preferences : List (Option String)
  saves : Nat
  deriving DecidableEq, Repr

/-- The bytes of a C string: the UTF-8 encoding of the text. -/
def utf8Bytes (s : String) : List Nat :=
  (s.data.flatMap String.utf8EncodeChar).map (fun b => b.toNat)

/-- The label of a path, as bytes: the path, with the middle replaced by an
ellipsis when `strlen` gives more than 43 bytes (the first 20 bytes, three
dots, the last 20 bytes). -/
def menuLabel (path : String) : List Nat :=
  let menu_text := utf8Bytes path
  let n := menu_text.length
  if n > 43 then
    menu_text.take 20 ++ utf8Bytes "..." ++ menu_text.drop (n - 20)
  else menu_text

/-- Function `set_recent_file_menu_item`: store a path in item `i`, with its
label and flags. -/
def set_recent_file_menu_item (items : List Fl_Menu_Item) (i : Nat) (path : String) :
    List Fl_Menu_Item :=
  let mi := items.getD i nullItem
  if mi.user_data_ = some path then items
  else
    let mi := { mi with user_data_ := some path }
    let mi := { mi with text := some (menuLabel path) }
    if path ≠ "" then
      let mi := { mi with flags := { invisible := false, divider := false } }
      items.set i mi
    else
      let mi := { mi with flags := { mi.flags with invisible := true } }
      let items := items.set i mi
      if i > 0 then
        let before := items.getD (i - 1) nullItem
        items.set (i - 1) { before with flags := { before.flags with divider := true } }
      else items

/-- Function `TToolkit::SaveRecentFileMenu`: write the eight paths to the
preferences. -/
def SaveRecentFileMenu (m : RecentMenu) : RecentMenu :=
  { m with
    preferences := (List.range 8).map (fun i => (m.wTKOpenRecentMenu.getD i nullItem).user_data_)
    saves := m.saves + 1 }

/-- The search loop of `UpdateRecentFileMenu`: the first index from `i` on whose
path equals `new_file`, or the index after the last one tried. A null path
compares unequal. -/
def searchLoop (items : List Fl_Menu_Item) (new_file : String) : Nat → Nat → Nat
  | 0, i => i
  | n + 1, i =>
    if (items.getD i nullItem).user_data_ = some new_file then i
    else searchLoop items new_file n (i + 1)

/-- The shift loop of `UpdateRecentFileMenu`: for `i` down to 1, item `i` takes
the path, label and flags of item `i - 1`. -/
def shiftLoop (items : List Fl_Menu_Item) : Nat → List Fl_Menu_Item
  | 0 => items
  | i + 1 =>
    let src := items.getD i nullItem
    let dst := items.getD (i + 1) nullItem
    shiftLoop
      (items.set (i + 1)
        { dst with user_data_ := src.user_data_, text := src.text, flags := src.flags }) i

/-- Function `TToolkit::UpdateRecentFileMenu`: add a file path to the list of
recently opened files. -/
def UpdateRecentFileMenu (m : RecentMenu) (new_file : Option String) : RecentMenu :=
  match new_file with
  | none => m
  | some f =>
    if f = "" then m
    else
      let i := searchLoop m.wTKOpenRecentMenu f 8 0
      if i = 8 then
        let a := (m.wTKOpenRecentMenu.getD 7 nullItem).user_data_
        let b := (m.wTKOpenRecentMenu.getD 7 nullItem).text
        let items := shiftLoop m.wTKOpenRecentMenu 7
        let items := items.set 0 { (items.getD 0 nullItem) with user_data_ := a, text := b }
        let items := set_recent_file_menu_item items 0 f
        SaveRecentFileMenu { m with wTKOpenRecentMenu := items }
      else if i ≠ 0 then
        let a := (m.wTKOpenRecentMenu.getD i nullItem).user_data_
        let b := (m.wTKOpenRecentMenu.getD i nullItem).text
        let items := shiftLoop m.wTKOpenRecentMenu i
        let items := items.set 0 { (items.getD 0 nullItem) with user_data_ := a, text := b }
        SaveRecentFileMenu { m with wTKOpenRecentMenu := items }
      else m

/-- The loop of `ClearRecentFileMenu`: each of its rounds calls
`set_recent_file_menu_item(0, "")`. -/
def clearLoop (items : List Fl_Menu_Item) : Nat → List Fl_Menu_Item
  | 0 => items
  | n + 1 => clearLoop (set_recent_file_menu_item items 0 "") n

/-- Function `TToolkit::ClearRecentFileMenu`. -/
def ClearRecentFileMenu (m : RecentMenu) : RecentMenu :=
  SaveRecentFileMenu { m with wTKOpenRecentMenu := clearLoop m.wTKOpenRecentMenu 8 }

/-- The file paths of the menu, first entry first. -/
def recentPaths (m : RecentMenu) : List (Option String) :=
  m.wTKOpenRecentMenu.map (fun mi => mi.user_data_)

/-- A visible menu item for a path. -/
def shownItem (path : String) (divider : Bool) : Fl_Menu_Item :=
  { user_data_ := some path, text := some (menuLabel path),
    flags := { invisible := false, divider := divider } }

/-- A hidden menu item without a path. -/
def hiddenItem (divider : Bool) : Fl_Menu_Item :=
  { user_data_ := some "", text := some (menuLabel ""),
    flags := { invisible := true, divider := divider } }

/-- A menu with three recent files, as `LoadRecentFileMenu` leaves it. -/
def sampleMenu : RecentMenu where
  wTKOpenRecentMenu :=
    [shownItem "/home/u/a.ns" false, shownItem "/home/u/b.ns" false,
     shownItem "/home/u/c.ns" true, hiddenItem true, hiddenItem true, hiddenItem true,
     hiddenItem true, hiddenItem false]
  preferences :=
    [some "/home/u/a.ns", some "/home/u/b.ns", some "/home/u/c.ns", some "", some "", some "",
     some "", some ""]
  saves := 0

/-! ## Find and replace -/

/-- The functions of the FLTK library that `UserActionReplaceAll` uses for case
folding and for restoring the cursor, taken as parameters: `fl_tolower` and
the line arithmetic of `Fl_Text_Buffer` (`count_lines`, `line_start`,
`skip_lines`, `line_end`, `utf8_align`), each given the text of the buffer. -/
structure Fltk where
  /-- Case folding of a character. -/
  fl_tolower : Char → Char
  /-- Number of newlines between two positions. -/
  count_lines : List Char → Nat → Nat → Nat
  /-- Start of the line that holds a position. -/
  line_start : List Char → Nat → Nat
  /-- Position reached from a start after a number of lines. -/
  skip_lines : List Char → Nat → Nat → Nat
  /-- End of the line that holds a position. -/
  line_end : List Char → Nat → Nat
  /-- Position moved back to the start of a character. -/
  utf8_align : List Char → Nat → Nat

/-- The script editor: the text of its `Fl_Text_Buffer` and its insert
position. The text is a list of characters and positions count characters. -/
structure TFLScriptEditor where
  buffer : List Char
  insert_position : Nat
  deriving DecidableEq, Repr

/-- The widgets of the find panel: the search text (`value()` may be null), the
replacement text and the match-case button. -/
structure FindPanel where
  wToolkitFindText : Option String
  wToolkitReplaceText : String
  wToolkitFindCase : Bool
  deriving DecidableEq, Repr

/-- The character comparison of `Fl_Text_Buffer::search_forward`: equal
characters when the case must match, equal after `fl_tolower` otherwise. -/
def sameChar (lib : Fltk) (matchCase : Bool) (s b : Char) : Bool :=
  if matchCase then s == b else lib.fl_tolower b == lib.fl_tolower s

/-- The inner loop of `Fl_Text_Buffer::search_forward`: the search string is
compared character by character with the text at a position; it is found when
its end is reached. Text past the end of the buffer never matches. -/
def matchesAt (same : Char → Char → Bool) : List Char → List Char → Bool
  | [], _ => true
  | _ :: _, [] => false
  | s :: sp, b :: bp => if same s b then matchesAt same sp bp else false

/-- The outer loop of `Fl_Text_Buffer::search_forward`, on the text from
`startPos` on: while the position is before the end of the buffer, try the
search string there, else go to the next character. -/
def searchFrom (same : Char → Char → Bool) (searchString : List Char) :
    List Char → Nat → Option Nat
  | [], _ => none
  | b :: rest, startPos =>
    if matchesAt same searchString (b :: rest) then some startPos
    else searchFrom same searchString rest (startPos + 1)

/-- Modelled on the FLTK library: `Fl_Text_Buffer::search_forward(startPos,
searchString, &foundPos, matchCase)`, the first position at or after `startPos`
where the search string is found, `none` for the return value 0. -/
def search_forward (same : Char → Char → Bool) (text : List Char) (startPos : Nat)
    (searchString : List Char) : Option Nat :=
  searchFrom same searchString (text.drop startPos) startPos

/-- Modelled on the FLTK library: `select(start, stop)` followed by
`remove_selection()`, which deletes the text between the two positions. -/
def remove_selection (text : List Char) (start stop : Nat) : List Char :=
  text.take start ++ text.drop stop

/-- Modelled on the FLTK library: `Fl_Text_Buffer::insert(pos, text)`. -/
def buffer_insert (text : List Char) (pos : Nat) (inserted : List Char) : List Char :=
  text.take pos ++ inserted ++ text.drop pos

/-- The loop `for (;;)` of `UserActionReplaceAll`, run for at most `fuel`
rounds: `none` when the rounds are used up before the loop breaks. -/
def replaceLoop (same : Char → Char → Bool) (findText replaceText : List Char) :
    Nat → List Char → Nat → Option (List Char)
  | 0, _, _ => none
  | fuel + 1, buffer, pos =>
    match search_forward same buffer pos findText with
    | none => some buffer
    | some found =>
      let pos := found
      let buffer := remove_selection buffer pos (pos + findText.length)
      let buffer := buffer_insert buffer pos replaceText
      let pos := pos + replaceText.length
      replaceLoop same findText replaceText fuel buffer pos

/-- Function `TToolkit::UserActionReplaceAll`: replace all occurrences of the
search string, then put the cursor back on its line and column. The loop runs
for at most `fuel` rounds. -/
def UserActionReplaceAll (lib : Fltk) (fuel : Nat) (ui : FindPanel)
    (editor : TFLScriptEditor) : Option TFLScriptEditor :=
  match ui.wToolkitFindText with
  | none => some editor
  | some findText =>
    if findText = "" then some editor
    else
      let replaceText := ui.wToolkitReplaceText
      let pos := 0
      let line := lib.count_lines editor.buffer 0 editor.insert_position
      let col := editor.insert_position - lib.line_start editor.buffer editor.insert_position
      match replaceLoop (sameChar lib ui.wToolkitFindCase) findText.data replaceText.data fuel
          editor.buffer pos with
      | none => none
      | some buffer =>
        let pos := lib.skip_lines buffer 0 line
        let max := lib.line_end buffer pos
        let pos := if pos + col > max then max else pos + col
        let pos := lib.utf8_align buffer pos
        some { buffer := buffer, insert_position := pos }

/-- The text with its occurrences of `find` replaced, scanning from the left;
`skip` counts the characters that still belong to the occurrence replaced
last. An occurrence that starts inside another one is not replaced, and the
replacement text is put out without being scanned. -/
def replaceAllFrom (same : Char → Char → Bool) (find repl : List Char) :
    Nat → List Char → List Char
  | _, [] => []
  | skip + 1, _ :: rest => replaceAllFrom same find repl skip rest
  | 0, c :: rest =>
    if matchesAt same find (c :: rest) then
      repl ++ replaceAllFrom same find repl (find.length - 1) rest
    else c :: replaceAllFrom same find repl 0 rest

/-- The text with every non-overlapping occurrence of `find`, found left to
right, replaced by `repl`. -/
def replaceAll (same : Char → Char → Bool) (find repl text : List Char) : List Char :=
  replaceAllFrom same find repl 0 text

/-- The relation between a text and the text with every non-overlapping
occurrence of `find`, found left to right, replaced by `repl`: where `find`
occurs it is replaced and the scan goes on behind the occurrence, elsewhere the
character is kept. -/
inductive ReplacedAll (same : Char → Char → Bool) (find repl : List Char) :
    List Char → List Char → Prop where
  | done : ReplacedAll same find repl [] []
  | keep (c : Char) (rest out : List Char) :
      matchesAt same find (c :: rest) = false →
      ReplacedAll same find repl rest out →
      ReplacedAll same find repl (c :: rest) (c :: out)
  | replace (text out : List Char) :
      matchesAt same find text = true →
      ReplacedAll same find repl (text.drop find.length) out →
      ReplacedAll same find repl text (repl ++ out)

/-- Positions after `n` more newlines, for the example library. -/
def skipLines : List Char → Nat → Nat → Nat
  | [], pos, _ => pos
  | _ :: _, pos, 0 => pos
  | c :: rest, pos, n + 1 =>
    if c = '\n' then skipLines rest (pos + 1) n else skipLines rest (pos + 1) (n + 1)

/-- A library for the examples: no case folding, and line arithmetic on
newline characters. -/
def sampleFltk : Fltk where
  fl_tolower := fun c => c
  count_lines := fun text start stop => ((text.take stop).drop start).count '\n'
  line_start := fun text pos =>
    pos - ((text.take pos).reverse.takeWhile (fun c => c != '\n')).length
  skip_lines := fun text start n => skipLines (text.drop start) start n
  line_end := fun text pos => pos + ((text.drop pos).takeWhile (fun c => c != '\n')).length
  utf8_align := fun _ pos => pos

/-- An editor with two lines and the cursor on the second. -/
def sampleEditor : TFLScriptEditor :=
  { buffer := "foo bar foofoo\nfo food".data, insert_position := 18 }

/-- A find panel whose replacement contains the search text. -/
def samplePanel : FindPanel :=
  { wToolkitFindText := some "foo", wToolkitReplaceText := "[foo]", wToolkitFindCase := true }

/-- A find panel with an empty replacement and a search text that overlaps
itself. -/
def overlapPanel : FindPanel :=
  { wToolkitFindText := some "aa", wToolkitReplaceText := "", wToolkitFindCase := true }

/-! ## Theorems -/

section Setters

@[simp] theorem SetPkgPath_eq (tk : TToolkit) (n : String) :
    SetPkgPath tk (some n) = { tk with mPkgPath := some n } := by
  unfold SetPkgPath
  split
  · next h => cases tk; simp_all
  · rfl

@[simp] theorem SetPkgName_eq (tk : TToolkit) (n : String) :
    SetPkgName tk (some n) = { tk with mPkgName := some n } := by
  unfold SetPkgName
  split
  · next h => cases tk; simp_all
  · rfl

@[simp] theorem SetPkgSymbol_eq (tk : TToolkit) (n : String) :
    SetPkgSymbol tk (some n) = { tk with mPkgSymbol := some n } := by
  unfold SetPkgSymbol
  split
  · next h => cases tk; simp_all
  · rfl

@[simp] theorem SetPkgLabel_eq (tk : TToolkit) (n : String) :
    SetPkgLabel tk (some n) = { tk with mPkgLabel := some n } := by
  unfold SetPkgLabel
  split
  · next h => cases tk; simp_all
  · rfl

end Setters

section Validation

variable (globals : Globals) (tk : TToolkit)

theorem rsr_fail0 (h0 : NewtRefIsFrame (graphRoot globals) = false) :
    ReadScriptResults globals tk =
      (-1, PrintErr tk "Error: can't build package, 'newt' not defined!\n") := by
  unfold graphRoot at h0
  simp [ReadScriptResults, h0]

theorem rsr_fail1 (h0 : NewtRefIsFrame (graphRoot globals) = true)
    (h1 : NewtRefIsFrame (graphApp globals) = false) :
    ReadScriptResults globals tk =
      (-1, PrintErr (afterPath globals tk)
        "Error: can't build package, 'newt.app' not defined!\n") := by
  unfold graphApp at h1
  unfold graphRoot at h0 h1
  simp [ReadScriptResults, h0, h1, afterPath, graphPkgPath, graphRoot]

theorem rsr_fail2 (h0 : NewtRefIsFrame (graphRoot globals) = true)
    (h1 : NewtRefIsFrame (graphApp globals) = true)
    (h2 : NewtRefIsString (graphName globals) = false) :
    ReadScriptResults globals tk =
      (-1, PrintErr (afterPath globals tk)
        "Error: can't build package, 'newt.app.name' not defined!\n") := by
  unfold graphName at h2
  unfold graphApp at h1 h2
  unfold graphRoot at h0 h1 h2
  simp [ReadScriptResults, h0, h1, h2, afterPath, graphPkgPath, graphRoot]

theorem rsr_fail3 (h0 : NewtRefIsFrame (graphRoot globals) = true)
    (h1 : NewtRefIsFrame (graphApp globals) = true)
    (h2 : NewtRefIsString (graphName globals) = true)
    (h3 : NewtRefIsArray (graphParts globals) = false) :
    ReadScriptResults globals tk =
      (-1, PrintErr (afterName globals tk)
        "Error: can't build package, 'newt.app.parts' not defined!\n") := by
  unfold graphParts at h3
  unfold graphName at h2
  unfold graphApp at h1 h2 h3
  unfold graphRoot at h0 h1 h2 h3
  simp [ReadScriptResults, h0, h1, h2, h3, afterName, afterPath, graphPkgPath, graphName,
    graphApp, graphRoot]

theorem rsr_fail4 (h0 : NewtRefIsFrame (graphRoot globals) = true)
    (h1 : NewtRefIsFrame (graphApp globals) = true)
    (h2 : NewtRefIsString (graphName globals) = true)
    (h3 : NewtRefIsArray (graphParts globals) = true)
    (h4 : NewtRefIsFrame (graphPart0 globals) = false) :
    ReadScriptResults globals tk =
      (-1, PrintErr (afterName globals tk)
        "Error: can't build package, 'newt.app.parts[0]' not defined!\n") := by
  unfold graphPart0 at h4
  unfold graphParts at h3 h4
  unfold graphName at h2
  unfold graphApp at h1 h2 h3 h4
  unfold graphRoot at h0 h1 h2 h3 h4
  simp [ReadScriptResults, h0, h1, h2, h3, h4, afterName, afterPath, graphPkgPath, graphName,
    graphApp, graphRoot]

theorem rsr_fail5 (h0 : NewtRefIsFrame (graphRoot globals) = true)
    (h1 : NewtRefIsFrame (graphApp globals) = true)
    (h2 : NewtRefIsString (graphName globals) = true)
    (h3 : NewtRefIsArray (graphParts globals) = true)
    (h4 : NewtRefIsFrame (graphPart0 globals) = true)
    (h5 : NewtRefIsFrame (graphData globals) = false) :
    ReadScriptResults globals tk =
      (-1, PrintErr (afterName globals tk)
        "Error: can't build package, 'newt.app.parts[0].data' not defined!\n") := by
  unfold graphData at h5
  unfold graphPart0 at h4 h5
  unfold graphParts at h3 h4 h5
  unfold graphName at h2
  unfold graphApp at h1 h2 h3 h4 h5
  unfold graphRoot at h0 h1 h2 h3 h4 h5
  simp [ReadScriptResults, h0, h1, h2, h3, h4, h5, afterName, afterPath, graphPkgPath,
    graphName, graphApp, graphRoot]

theorem rsr_fail6 (h0 : NewtRefIsFrame (graphRoot globals) = true)
    (h1 : NewtRefIsFrame (graphApp globals) = true)
    (h2 : NewtRefIsString (graphName globals) = true)
    (h3 : NewtRefIsArray (graphParts globals) = true)
    (h4 : NewtRefIsFrame (graphPart0 globals) = true)
    (h5 : NewtRefIsFrame (graphData globals) = true)
    (h6 : NewtRefIsSymbol (graphSymbol globals) = false) :
    ReadScriptResults globals tk =
      (-1, PrintErr (afterName globals tk)
        "Error: can't build package, package symbol not defined! Expected in 'newt.app.parts[0].data'.\n") := by
  unfold graphSymbol at h6
  unfold graphData at h5 h6
  unfold graphPart0 at h4 h5 h6
  unfold graphParts at h3 h4 h5 h6
  unfold graphName at h2
  unfold graphApp at h1 h2 h3 h4 h5 h6
  unfold graphRoot at h0 h1 h2 h3 h4 h5 h6
  simp [ReadScriptResults, h0, h1, h2, h3, h4, h5, h6, afterName, afterPath, graphPkgPath,
    graphName, graphApp, graphRoot]

theorem rsr_ok (h0 : NewtRefIsFrame (graphRoot globals) = true)
    (h1 : NewtRefIsFrame (graphApp globals) = true)
    (h2 : NewtRefIsString (graphName globals) = true)
    (h3 : NewtRefIsArray (graphParts globals) = true)
    (h4 : NewtRefIsFrame (graphPart0 globals) = true)
    (h5 : NewtRefIsFrame (graphData globals) = true)
    (h6 : NewtRefIsSymbol (graphSymbol globals) = true) :
    ReadScriptResults globals tk =
      (0, PrintStd
        { afterName globals tk with
          mPkgSymbol := some (NewtSymbolGetName (graphSymbol globals))
          mPkgLabel := some (labelOf globals) }
        "Info: package compiled.\n") := by
  have e : ReadScriptResults globals tk =
      (0, PrintStd
        (if NewtRefIsString (graphText globals) then
          SetPkgLabel (SetPkgSymbol (afterName globals tk)
            (some (NewtSymbolGetName (graphSymbol globals))))
            (some (NewtRefToString (graphText globals)))
        else
          SetPkgLabel (SetPkgSymbol (afterName globals tk)
            (some (NewtSymbolGetName (graphSymbol globals)))) (some "<unknown>"))
        "Info: package compiled.\n") := by
    unfold graphSymbol at h6
    unfold graphData at h5 h6
    unfold graphPart0 at h4 h5 h6
    unfold graphParts at h3 h4 h5 h6
    unfold graphName at h2
    unfold graphApp at h1 h2 h3 h4 h5 h6
    unfold graphRoot at h0 h1 h2 h3 h4 h5 h6
    simp only [ReadScriptResults, h0, h1, h2, h3, h4, h5, h6, afterName, afterPath,
      graphPkgPath, graphName, graphApp, graphRoot, graphText, graphData, graphPart0,
      graphParts, graphSymbol, Bool.not_true, Bool.false_eq_true, if_false, if_true]
  rw [e]
  unfold labelOf
  split <;> simp

/-- The return value and the new toolkit when condition `k` is the first that
fails: `-1`, and the toolkit as left by the stores made before step `k`, with
the diagnostic of step `k` printed. -/
theorem rsr_first_failure (k : Nat) (hk : firstFailureAt globals k) :
    ReadScriptResults globals tk =
      (-1, PrintErr (if k = 0 then tk else if k ≤ 2 then afterPath globals tk
        else afterName globals tk) (diagnostics.getD k "")) := by
  obtain ⟨hf, hb⟩ := hk
  have b0 := hb 0
  have b1 := hb 1
  have b2 := hb 2
  have b3 := hb 3
  have b4 := hb 4
  have b5 := hb 5
  rcases k with _ | _ | _ | _ | _ | _ | _ | k
  · exact rsr_fail0 globals tk (by simpa [requiredConditions] using hf)
  · exact rsr_fail1 globals tk (by simpa [requiredConditions] using b0)
      (by simpa [requiredConditions] using hf)
  · exact rsr_fail2 globals tk (by simpa [requiredConditions] using b0)
      (by simpa [requiredConditions] using b1) (by simpa [requiredConditions] using hf)
  · exact rsr_fail3 globals tk (by simpa [requiredConditions] using b0)
      (by simpa [requiredConditions] using b1) (by simpa [requiredConditions] using b2)
      (by simpa [requiredConditions] using hf)
  · exact rsr_fail4 globals tk (by simpa [requiredConditions] using b0)
      (by simpa [requiredConditions] using b1) (by simpa [requiredConditions] using b2)
      (by simpa [requiredConditions] using b3) (by simpa [requiredConditions] using hf)
  · exact rsr_fail5 globals tk (by simpa [requiredConditions] using b0)
      (by simpa [requiredConditions] using b1) (by simpa [requiredConditions] using b2)
      (by simpa [requiredConditions] using b3) (by simpa [requiredConditions] using b4)
      (by simpa [requiredConditions] using hf)
  · exact rsr_fail6 globals tk (by simpa [requiredConditions] using b0)
      (by simpa [requiredConditions] using b1) (by simpa [requiredConditions] using b2)
      (by simpa [requiredConditions] using b3) (by simpa [requiredConditions] using b4)
      (by simpa [requiredConditions] using b5) (by simpa [requiredConditions] using hf)
  · simp [requiredConditions] at hf

/-- All seven conditions hold, or one of them is the first that fails. -/
theorem conditions_cases :
    (∀ c ∈ requiredConditions globals, c = true) ∨
      ∃ k, k < 7 ∧ firstFailureAt globals k := by
  unfold firstFailureAt requiredConditions
  cases h0 : NewtRefIsFrame (graphRoot globals)
  · exact Or.inr ⟨0, by simp⟩
  cases h1 : NewtRefIsFrame (graphApp globals)
  · exact Or.inr ⟨1, by simp, by simp, fun j hj => by interval_cases j; simp⟩
  cases h2 : NewtRefIsString (graphName globals)
  · exact Or.inr ⟨2, by simp, by simp, fun j hj => by interval_cases j <;> simp⟩
  cases h3 : NewtRefIsArray (graphParts globals)
  · exact Or.inr ⟨3, by simp, by simp, fun j hj => by interval_cases j <;> simp⟩
  cases h4 : NewtRefIsFrame (graphPart0 globals)
  · exact Or.inr ⟨4, by simp, by simp, fun j hj => by interval_cases j <;> simp⟩
  cases h5 : NewtRefIsFrame (graphData globals)
  · exact Or.inr ⟨5, by simp, by simp, fun j hj => by interval_cases j <;> simp⟩
  cases h6 : NewtRefIsSymbol (graphSymbol globals)
  · exact Or.inr ⟨6, by simp, by simp, fun j hj => by interval_cases j <;> simp⟩
  · exact Or.inl (by simp)

/-- The result of a call on a graph that satisfies all seven conditions. -/
theorem rsr_all (hall : ∀ c ∈ requiredConditions globals, c = true) :
    ReadScriptResults globals tk =
      (0, PrintStd
        { afterName globals tk with
          mPkgSymbol := some (NewtSymbolGetName (graphSymbol globals))
          mPkgLabel := some (labelOf globals) }
        "Info: package compiled.\n") := by
  simp only [requiredConditions, List.mem_cons, List.mem_singleton, forall_eq_or_imp,
    forall_eq, List.not_mem_nil, false_imp_iff, implies_true, and_true] at hall
  obtain ⟨h0, h1, h2, h3, h4, h5, h6⟩ := hall
  exact rsr_ok globals tk h0 h1 h2 h3 h4 h5 h6

/-- The call returns 0 exactly on the graphs that satisfy all seven conditions. -/
theorem rsr_zero_iff :
    (ReadScriptResults globals tk).1 = 0 ↔ ∀ c ∈ requiredConditions globals, c = true := by
  rcases conditions_cases globals with hall | ⟨k, hk7, hk⟩
  · exact ⟨fun _ => hall, fun _ => by rw [rsr_all globals tk hall]⟩
  · constructor
    · intro h
      rw [rsr_first_failure globals tk k hk] at h
      have h' : (-1 : Int) = 0 := h
      exact absurd h' (by decide)
    · intro hall
      obtain ⟨hf, -⟩ := hk
      have hmem : (requiredConditions globals).getD k true ∈ requiredConditions globals := by
        have hlen : k < (requiredConditions globals).length := by simpa [requiredConditions]
        rw [List.getD_eq_getElem _ _ hlen]
        exact List.getElem_mem _
      have := hall _ hmem
      rw [hf] at this
      exact absurd this (by decide)

/-- A call that does not return 0 fails at one of the seven conditions. -/
theorem rsr_failure_cases (h : (ReadScriptResults globals tk).1 ≠ 0) :
    ∃ k, k < 7 ∧ firstFailureAt globals k := by
  rcases conditions_cases globals with hall | hk
  · exact absurd ((rsr_zero_iff globals tk).2 hall) h
  · exact hk

theorem isString_cases (r : NewtRef) (h : NewtRefIsString r = true) :
    ∃ s, r = .string s ∧ NewtRefToString r = s := by
  cases r <;> simp_all [NewtRefIsString, NewtRefToString]

theorem isSymbol_cases (r : NewtRef) (h : NewtRefIsSymbol r = true) :
    ∃ s, r = .symbol s ∧ NewtSymbolGetName r = s := by
  cases r <;> simp_all [NewtRefIsSymbol, NewtSymbolGetName]

theorem afterPath_fields :
    (afterPath globals tk).mPkgPath =
        (if NewtRefIsString (graphPkgPath globals) then
          some (NewtRefToString (graphPkgPath globals)) else tk.mPkgPath) ∧
      (afterPath globals tk).mPkgName = tk.mPkgName ∧
      (afterPath globals tk).mPkgSymbol = tk.mPkgSymbol ∧
      (afterPath globals tk).mPkgLabel = tk.mPkgLabel ∧
      (afterPath globals tk).terminal = tk.terminal := by
  unfold afterPath
  split <;> simp

theorem afterName_fields :
    (afterName globals tk).mPkgPath = (afterPath globals tk).mPkgPath ∧
      (afterName globals tk).mPkgName = some (NewtRefToString (graphName globals)) ∧
      (afterName globals tk).mPkgSymbol = tk.mPkgSymbol ∧
      (afterName globals tk).mPkgLabel = tk.mPkgLabel ∧
      (afterName globals tk).terminal = tk.terminal := by
  obtain ⟨-, -, h3, h4, h5⟩ := afterPath_fields globals tk
  simp [afterName, h3, h4, h5]

theorem afterPath_congr (g1 g2 : Globals)
    (h : stringOf (graphPkgPath g1) = stringOf (graphPkgPath g2)) :
    afterPath g1 tk = afterPath g2 tk := by
  unfold afterPath
  unfold stringOf at h
  split_ifs at h ⊢ <;> simp_all

theorem afterName_congr (g1 g2 : Globals)
    (hp : stringOf (graphPkgPath g1) = stringOf (graphPkgPath g2))
    (h1 : NewtRefIsString (graphName g1) = true)
    (hn : stringOf (graphName g1) = stringOf (graphName g2)) :
    afterName g1 tk = afterName g2 tk := by
  unfold afterName
  rw [afterPath_congr tk g1 g2 hp]
  unfold stringOf at hn
  rw [if_pos h1] at hn
  split_ifs at hn
  simp_all

/-- C1: `ReadScriptResults` checks the seven required conditions in the fixed
order root, `app`, `app.name`, `app.parts`, `parts[0]`, `parts[0].data`,
`data.app`. It returns 0 exactly when all seven hold; otherwise it returns -1
and appends exactly one text to the console, the diagnostic of the first
condition in that order that does not hold. -/
theorem ReadScriptResults_ordered_validation :
    ((ReadScriptResults globals tk).1 = 0 ↔ ∀ c ∈ requiredConditions globals, c = true) ∧
    ((ReadScriptResults globals tk).1 = 0 ∨ (ReadScriptResults globals tk).1 = -1) ∧
    (∀ k, firstFailureAt globals k →
      (ReadScriptResults globals tk).1 = -1 ∧
      (ReadScriptResults globals tk).2.terminal = tk.terminal ++ [diagnostics.getD k ""]) ∧
    ((ReadScriptResults globals tk).1 ≠ 0 → ∃ k, k < 7 ∧ firstFailureAt globals k) := by
  have hfail : ∀ k, firstFailureAt globals k →
      (ReadScriptResults globals tk).1 = -1 ∧
      (ReadScriptResults globals tk).2.terminal = tk.terminal ++ [diagnostics.getD k ""] := by
    intro k hk
    rw [rsr_first_failure globals tk k hk]
    refine ⟨rfl, ?_⟩
    by_cases h0 : k = 0
    · simp [h0, PrintErr, PrintStd]
    · by_cases h2 : k ≤ 2 <;>
        simp only [h0, h2, if_false, if_true, PrintErr, PrintStd, afterName, afterPath,
          SetPkgName_eq, SetPkgPath_eq] <;> split <;> rfl
  rcases conditions_cases globals with hall | ⟨k, hk7, hk⟩
  · have e := rsr_all globals tk hall
    refine ⟨?_, ?_, hfail, ?_⟩
    · exact ⟨fun _ => hall, fun _ => by rw [e]⟩
    · exact Or.inl (by rw [e])
    · intro h; rw [e] at h; exact absurd rfl h
  · have e := (hfail k hk).1
    refine ⟨?_, Or.inr e, hfail, fun _ => ⟨k, hk7, hk⟩⟩
    constructor
    · intro h; rw [e] at h; exact absurd h (by decide)
    · intro hall
      obtain ⟨hf, -⟩ := hk
      have hmem : (requiredConditions globals).getD k true ∈ requiredConditions globals := by
        have hlen : k < (requiredConditions globals).length := by simpa [requiredConditions]
        rw [List.getD_eq_getElem _ _ hlen]
        exact List.getElem_mem _
      have := hall _ hmem
      rw [hf] at this
      exact absurd this (by decide)

end Validation

/-- C1 at a concrete graph: a root with a path and no `app` fails at the second
condition with the second diagnostic. -/
theorem ReadScriptResults_ordered_validation_witness :
    (ReadScriptResults pathOnlyGraph builtToolkit).1 = -1 ∧
    (ReadScriptResults pathOnlyGraph builtToolkit).2.terminal =
      ["Error: can't build package, 'newt.app' not defined!\n"] :=
  (ReadScriptResults_ordered_validation pathOnlyGraph builtToolkit).2.2.1 1
    ⟨by decide, by decide⟩

/-- C2: whenever `ReadScriptResults` returns 0, the stored name is the string
in `app.name`, the stored symbol is the name of the symbol in
`app.parts[0].data.app`, the stored path is `newt.pkgPath` when that slot is a
string and the path set before the call otherwise, and the console receives
exactly one text, "Info: package compiled.", which is none of the error
diagnostics. -/
theorem ReadScriptResults_success_descriptor (globals : Globals) (tk : TToolkit)
    (h : (ReadScriptResults globals tk).1 = 0) :
    (∃ n, graphName globals = .string n ∧
      (ReadScriptResults globals tk).2.mPkgName = some n) ∧
    (∃ s, graphSymbol globals = .symbol s ∧
      (ReadScriptResults globals tk).2.mPkgSymbol = some s) ∧
    (∀ p, graphPkgPath globals = .string p →
      (ReadScriptResults globals tk).2.mPkgPath = some p) ∧
    (NewtRefIsString (graphPkgPath globals) = false →
      (ReadScriptResults globals tk).2.mPkgPath = tk.mPkgPath) ∧
    (ReadScriptResults globals tk).2.terminal =
      tk.terminal ++ ["Info: package compiled.\n"] ∧
    "Info: package compiled.\n" ∉ diagnostics := by
  have hall := (rsr_zero_iff globals tk).1 h
  rw [rsr_all globals tk hall]
  obtain ⟨a1, a2, -, -, a5⟩ := afterName_fields globals tk
  obtain ⟨b1, -, -, -, -⟩ := afterPath_fields globals tk
  simp only [requiredConditions, List.mem_cons, List.mem_singleton, forall_eq_or_imp,
    forall_eq, List.not_mem_nil, false_imp_iff, implies_true, and_true] at hall
  obtain ⟨-, -, h2, -, -, -, h6⟩ := hall
  obtain ⟨n, hn, hn'⟩ := isString_cases _ h2
  obtain ⟨y, hy, hy'⟩ := isSymbol_cases _ h6
  refine ⟨⟨n, hn, ?_⟩, ⟨y, hy, ?_⟩, ?_, ?_, ?_, by decide⟩
  · simp [PrintStd, a2, hn']
  · simp [PrintStd, hy']
  · intro p hp
    simp [PrintStd, a1, b1, hp, NewtRefIsString, NewtRefToString]
  · intro hp
    simp [PrintStd, a1, b1, hp]
  · simp [PrintStd, a5]

/-- C2 at the complete sample graph. -/
theorem ReadScriptResults_success_descriptor_witness :
    (ReadScriptResults sampleGraph builtToolkit).2.mPkgName = some "Hello:SIG" ∧
    (ReadScriptResults sampleGraph builtToolkit).2.mPkgSymbol = some "Hello:SIG" ∧
    (ReadScriptResults sampleGraph builtToolkit).2.mPkgPath = some "/tmp/hello.pkg" ∧
    (ReadScriptResults sampleGraph builtToolkit).2.terminal =
      ["Info: package compiled.\n"] := by
  have h := ReadScriptResults_success_descriptor sampleGraph builtToolkit (by decide)
  obtain ⟨⟨n, hn, hn'⟩, ⟨y, hy, hy'⟩, hp, -, ht, -⟩ := h
  refine ⟨?_, ?_, hp "/tmp/hello.pkg" rfl, ht⟩
  · have : n = "Hello:SIG" := by
      have e : graphName sampleGraph = .string "Hello:SIG" := rfl
      rw [e] at hn
      exact (NewtRef.string.inj hn).symm
    rw [hn', this]
  · have : y = "Hello:SIG" := by
      have e : graphSymbol sampleGraph = .symbol "Hello:SIG" := rfl
      rw [e] at hy
      exact (NewtRef.symbol.inj hy).symm
    rw [hy', this]

/-- C3, as stated, fails: a call that returns -1 has replaced the stored path
(the graph has a `pkgPath` string and no `app`), and another failing call has
replaced the stored path and the stored name (no `parts`). -/
theorem ReadScriptResults_failure_stores_fields :
    ((ReadScriptResults pathOnlyGraph builtToolkit).1 = -1 ∧
      builtToolkit.mPkgPath = some "/home/u/old.pkg" ∧
      (ReadScriptResults pathOnlyGraph builtToolkit).2.mPkgPath = some "/tmp/new.pkg") ∧
    ((ReadScriptResults nameOnlyGraph builtToolkit).1 = -1 ∧
      builtToolkit.mPkgName = some "Old:SIG" ∧
      (ReadScriptResults nameOnlyGraph builtToolkit).2.mPkgName = some "New:SIG" ∧
      (ReadScriptResults nameOnlyGraph builtToolkit).2.mPkgPath = some "/tmp/new.pkg") := by
  decide

/-- C3, amended: on every failing call the stored symbol and label keep their
values and exactly one diagnostic is appended to the console; the stored path
keeps its value unless the root is a frame whose `pkgPath` is a string, which
is then stored; the stored name keeps its value unless the root and `app` are
frames and `app.name` is a string, which is then stored. -/
theorem ReadScriptResults_failure_effects (globals : Globals) (tk : TToolkit)
    (h : (ReadScriptResults globals tk).1 = -1) :
    (ReadScriptResults globals tk).2.mPkgSymbol = tk.mPkgSymbol ∧
    (ReadScriptResults globals tk).2.mPkgLabel = tk.mPkgLabel ∧
    (∃ d ∈ diagnostics, (ReadScriptResults globals tk).2.terminal = tk.terminal ++ [d]) ∧
    (ReadScriptResults globals tk).2.mPkgPath =
      (if NewtRefIsFrame (graphRoot globals) && NewtRefIsString (graphPkgPath globals) then
        some (NewtRefToString (graphPkgPath globals)) else tk.mPkgPath) ∧
    (ReadScriptResults globals tk).2.mPkgName =
      (if NewtRefIsFrame (graphRoot globals) && NewtRefIsFrame (graphApp globals) &&
          NewtRefIsString (graphName globals) then
        some (NewtRefToString (graphName globals)) else tk.mPkgName) := by
  have hne : (ReadScriptResults globals tk).1 ≠ 0 := by rw [h]; decide
  obtain ⟨k, hk7, hk⟩ := rsr_failure_cases globals tk hne
  rw [rsr_first_failure globals tk k hk]
  obtain ⟨a1, a2, a3, a4, a5⟩ := afterName_fields globals tk
  obtain ⟨b1, b2, b3, b4, b5⟩ := afterPath_fields globals tk
  obtain ⟨hf, hb⟩ := hk
  have c0 := hb 0
  have c1 := hb 1
  have c2 := hb 2
  have hd : diagnostics.getD k "" ∈ diagnostics := by
    have hlen : k < diagnostics.length := by simpa [diagnostics] using hk7
    rw [List.getD_eq_getElem _ _ hlen]
    exact List.getElem_mem _
  simp only [requiredConditions] at hf c0 c1 c2
  interval_cases k
  · simp only [List.getD_cons_zero] at hf
    refine ⟨rfl, rfl, ⟨_, hd, rfl⟩, ?_, ?_⟩ <;> simp [PrintErr, PrintStd, hf]
  · have r0 : NewtRefIsFrame (graphRoot globals) = true := by simpa using c0
    have r1 : NewtRefIsFrame (graphApp globals) = false := by simpa using hf
    refine ⟨?_, ?_, ⟨_, hd, ?_⟩, ?_, ?_⟩ <;> simp [PrintErr, PrintStd, r0, r1, b1, b2, b3, b4, b5]
  · have r0 : NewtRefIsFrame (graphRoot globals) = true := by simpa using c0
    have r1 : NewtRefIsFrame (graphApp globals) = true := by simpa using c1
    have r2 : NewtRefIsString (graphName globals) = false := by simpa using hf
    refine ⟨?_, ?_, ⟨_, hd, ?_⟩, ?_, ?_⟩ <;>
      simp [PrintErr, PrintStd, r0, r1, r2, b1, b2, b3, b4, b5]
  all_goals
    have r0 : NewtRefIsFrame (graphRoot globals) = true := by simpa using c0
    have r1 : NewtRefIsFrame (graphApp globals) = true := by simpa using c1
    have r2 : NewtRefIsString (graphName globals) = true := by simpa using c2
    refine ⟨?_, ?_, ⟨_, hd, ?_⟩, ?_, ?_⟩ <;>
      simp [PrintErr, PrintStd, r0, r1, r2, a1, a2, a3, a4, a5, b1]

/-- C3, amended, at a graph that fails for its missing `parts`: symbol and
label are kept. -/
theorem ReadScriptResults_failure_effects_witness :
    (ReadScriptResults nameOnlyGraph builtToolkit).2.mPkgSymbol = some "Old:SIG" ∧
    (ReadScriptResults nameOnlyGraph builtToolkit).2.mPkgLabel = some "Old" :=
  ⟨(ReadScriptResults_failure_effects nameOnlyGraph builtToolkit (by decide)).1,
   (ReadScriptResults_failure_effects nameOnlyGraph builtToolkit (by decide)).2.1⟩

/-- C5: on every graph that satisfies the seven required conditions the label
step does not abort: `ReadScriptResults` returns 0, and the stored label is the
string in `data.text` when that slot is a string and the placeholder
"<unknown>" when the slot is absent or of another kind. -/
theorem ReadScriptResults_label (globals : Globals) (tk : TToolkit)
    (hall : ∀ c ∈ requiredConditions globals, c = true) :
    (ReadScriptResults globals tk).1 = 0 ∧
    (∀ t, graphText globals = .string t →
      (ReadScriptResults globals tk).2.mPkgLabel = some t) ∧
    (NewtRefIsString (graphText globals) = false →
      (ReadScriptResults globals tk).2.mPkgLabel = some "<unknown>") := by
  rw [rsr_all globals tk hall]
  refine ⟨rfl, ?_, ?_⟩
  · intro t ht
    simp [PrintStd, labelOf, ht, NewtRefIsString, NewtRefToString]
  · intro ht
    simp [PrintStd, labelOf, ht]

/-- C5 at a complete graph without `data.text`: the placeholder is stored. -/
theorem ReadScriptResults_label_witness :
    (ReadScriptResults plainGraph builtToolkit).1 = 0 ∧
    (ReadScriptResults plainGraph builtToolkit).2.mPkgLabel = some "<unknown>" :=
  ⟨(ReadScriptResults_label plainGraph builtToolkit (by decide)).1,
   (ReadScriptResults_label plainGraph builtToolkit (by decide)).2.2 (by decide)⟩

/-- C6: validation short-circuits. If two graphs agree on everything steps
`1..k+1` examine and condition `k` (counted from 0) is the first that fails on
the first graph, then it is the first that fails on the second graph too, and
`ReadScriptResults` gives the same return value, the same console and the same
descriptor fields on both, whatever the graphs hold in the slots of later
steps. -/
theorem ReadScriptResults_short_circuit (g1 g2 : Globals) (tk : TToolkit) (k : Nat)
    (hagree : examinedUpTo g1 (k + 1) = examinedUpTo g2 (k + 1))
    (hfail : firstFailureAt g1 k) :
    firstFailureAt g2 k ∧ ReadScriptResults g1 tk = ReadScriptResults g2 tk := by
  have hk7 : k < 7 := by
    by_contra hge
    have hlen : (requiredConditions g1).length ≤ k := by
      simp only [requiredConditions, List.length_cons, List.length_nil]; omega
    have := hfail.1
    rw [List.getD_eq_default _ _ hlen] at this
    exact absurd this (by decide)
  have key : firstFailureAt g2 k ∧
      (if k = 0 then tk else if k ≤ 2 then afterPath g1 tk else afterName g1 tk) =
      (if k = 0 then tk else if k ≤ 2 then afterPath g2 tk else afterName g2 tk) := by
    obtain ⟨hf, hb⟩ := hfail
    have c0 := hb 0
    have c1 := hb 1
    have c2 := hb 2
    have c3 := hb 3
    have c4 := hb 4
    have c5 := hb 5
    simp only [requiredConditions] at hf c0 c1 c2 c3 c4 c5
    unfold firstFailureAt requiredConditions
    simp only [examinedUpTo, examinedBy] at hagree
    interval_cases k
    · simp only [List.getD_cons_zero] at hf
      simp_all
    · have r0 : NewtRefIsFrame (graphRoot g1) = true := by simpa using c0
      have r1 : NewtRefIsFrame (graphApp g1) = false := by simpa using hf
      simp only [List.take_succ_cons, List.take_zero, List.flatten_cons, List.flatten_nil,
        List.append_nil, List.cons_append, List.nil_append, List.cons.injEq, Seen.kind.injEq,
        Seen.text.injEq, and_true] at hagree
      obtain ⟨e0, ep, e1⟩ := hagree
      refine ⟨⟨by simp [← e1, r1], fun j hj => ?_⟩, ?_⟩
      · interval_cases j; simp [← e0, r0]
      · simp [afterPath_congr tk g1 g2 ep]
    · have r0 : NewtRefIsFrame (graphRoot g1) = true := by simpa using c0
      have r1 : NewtRefIsFrame (graphApp g1) = true := by simpa using c1
      have r2 : NewtRefIsString (graphName g1) = false := by simpa using hf
      simp only [List.take_succ_cons, List.take_zero, List.flatten_cons, List.flatten_nil,
        List.append_nil, List.cons_append, List.nil_append, List.cons.injEq, Seen.kind.injEq,
        Seen.text.injEq, and_true] at hagree
      obtain ⟨e0, ep, e1, e2⟩ := hagree
      have s2 : NewtRefIsString (graphName g2) = false := by
        unfold stringOf at e2
        rw [if_neg (by simp [r2])] at e2
        split_ifs at e2 with h2
        simpa using h2
      refine ⟨⟨by simp [s2], fun j hj => ?_⟩, ?_⟩
      · interval_cases j <;> simp [← e0, r0, ← e1, r1]
      · simp [afterPath_congr tk g1 g2 ep]
    all_goals
      have r0 : NewtRefIsFrame (graphRoot g1) = true := by simpa using c0
      have r1 : NewtRefIsFrame (graphApp g1) = true := by simpa using c1
      have r2 : NewtRefIsString (graphName g1) = true := by simpa using c2
      simp only [List.take_succ_cons, List.take_zero, List.flatten_cons, List.flatten_nil,
        List.append_nil, List.cons_append, List.nil_append, List.cons.injEq, Seen.kind.injEq,
        Seen.text.injEq, and_true] at hagree
      have ep := hagree.2.1
      have e2 := hagree.2.2.2.1
      have s2 : NewtRefIsString (graphName g2) = true := by
        unfold stringOf at e2
        rw [if_pos r2] at e2
        split_ifs at e2 with h2
        exact h2
      have en := afterName_congr tk g1 g2 ep r2 e2
      refine ⟨⟨?_, fun j hj => ?_⟩, by simp [en]⟩
    · simp_all
    · interval_cases j <;> simp_all
    · simp_all
    · interval_cases j <;> simp_all
    · simp_all
    · interval_cases j <;> simp_all
    · have r6 : NewtRefIsSymbol (graphSymbol g1) = false := by simpa using hf
      have e6 := hagree.2.2.2.2.2.2.2
      have s6 : NewtRefIsSymbol (graphSymbol g2) = false := by
        unfold symbolOf at e6
        rw [if_neg (by simp [r6])] at e6
        split_ifs at e6 with h6
        simpa using h6
      simp [s6]
    · interval_cases j <;> simp_all
  refine ⟨key.1, ?_⟩
  rw [rsr_first_failure g1 tk k hfail, rsr_first_failure g2 tk k key.1, key.2]

/-- C6 at two graphs that differ in the `app` value and in later slots and both
fail at `app`. -/
theorem ReadScriptResults_short_circuit_witness :
    ReadScriptResults pathOnlyGraph builtToolkit =
      ReadScriptResults pathOnlyGraph2 builtToolkit :=
  (ReadScriptResults_short_circuit pathOnlyGraph pathOnlyGraph2 builtToolkit 1
    (by decide) ⟨by decide, by decide⟩).2

/-- C7: extraction is idempotent. When `ReadScriptResults` succeeds on a graph,
a second run on the same graph succeeds again and leaves path, name, symbol
and label as the first run left them. -/
theorem ReadScriptResults_idempotent (globals : Globals) (tk : TToolkit)
    (h : (ReadScriptResults globals tk).1 = 0) :
    (ReadScriptResults globals (ReadScriptResults globals tk).2).1 = 0 ∧
    (ReadScriptResults globals (ReadScriptResults globals tk).2).2.mPkgPath =
      (ReadScriptResults globals tk).2.mPkgPath ∧
    (ReadScriptResults globals (ReadScriptResults globals tk).2).2.mPkgName =
      (ReadScriptResults globals tk).2.mPkgName ∧
    (ReadScriptResults globals (ReadScriptResults globals tk).2).2.mPkgSymbol =
      (ReadScriptResults globals tk).2.mPkgSymbol ∧
    (ReadScriptResults globals (ReadScriptResults globals tk).2).2.mPkgLabel =
      (ReadScriptResults globals tk).2.mPkgLabel := by
  have hall := (rsr_zero_iff globals tk).1 h
  have e1 := rsr_all globals tk hall
  have f1 : (ReadScriptResults globals tk).2.mPkgPath =
      (if NewtRefIsString (graphPkgPath globals) then
        some (NewtRefToString (graphPkgPath globals)) else tk.mPkgPath) := by
    rw [e1]
    simp only [PrintStd]
    rw [(afterName_fields globals tk).1, (afterPath_fields globals tk).1]
  have f2 : (ReadScriptResults globals tk).2.mPkgName =
      some (NewtRefToString (graphName globals)) := by
    rw [e1]
    simp only [PrintStd]
    rw [(afterName_fields globals tk).2.1]
  have f3 : (ReadScriptResults globals tk).2.mPkgSymbol =
      some (NewtSymbolGetName (graphSymbol globals)) := by
    rw [e1]; rfl
  have f4 : (ReadScriptResults globals tk).2.mPkgLabel = some (labelOf globals) := by
    rw [e1]; rfl
  rw [f1, f2, f3, f4, rsr_all globals (ReadScriptResults globals tk).2 hall]
  simp only [PrintStd]
  rw [(afterName_fields globals _).1, (afterPath_fields globals _).1,
    (afterName_fields globals _).2.1, f1]
  refine ⟨trivial, ?_, rfl, trivial, trivial⟩
  split <;> rfl

/-- C7 at the sample graph without a path override, starting from an earlier
descriptor. -/
theorem ReadScriptResults_idempotent_witness :
    (ReadScriptResults plainGraph (ReadScriptResults plainGraph builtToolkit).2).1 = 0 ∧
    (ReadScriptResults plainGraph (ReadScriptResults plainGraph builtToolkit).2).2.mPkgPath =
      (ReadScriptResults plainGraph builtToolkit).2.mPkgPath :=
  ⟨(ReadScriptResults_idempotent plainGraph builtToolkit (by decide)).1,
   (ReadScriptResults_idempotent plainGraph builtToolkit (by decide)).2.1⟩

/-- C8, as stated, fails: with the root binding absent the one text written is
not "cannot build package, root not defined." and does not contain "root not
defined"; with the root present and `app` absent the one text written is not
"'app' not defined." and does not contain "'app' not defined". -/
theorem ReadScriptResults_diagnostics_differ :
    ((ReadScriptResults [] emptyToolkit).2.terminal =
        ["Error: can't build package, 'newt' not defined!\n"] ∧
      "Error: can't build package, 'newt' not defined!\n" ≠
        "cannot build package, root not defined." ∧
      ¬ ("root not defined".data <:+:
          "Error: can't build package, 'newt' not defined!\n".data)) ∧
    ((ReadScriptResults [("newt", .frame [])] emptyToolkit).2.terminal =
        ["Error: can't build package, 'newt.app' not defined!\n"] ∧
      "Error: can't build package, 'newt.app' not defined!\n" ≠ "'app' not defined." ∧
      ¬ ("'app' not defined".data <:+:
          "Error: can't build package, 'newt.app' not defined!\n".data)) := by
  decide

/-- C8, amended: the diagnostic written for each failing validation step is the
text the source assigns to it: "Error: can't build package, 'newt' not
defined!" when the root is absent or no frame, and the same sentence about
'newt.app', 'newt.app.name', 'newt.app.parts', 'newt.app.parts[0]',
'newt.app.parts[0].data' for the next five steps, and "Error: can't build
package, package symbol not defined! Expected in 'newt.app.parts[0].data'."
for the last; each ends in a newline. -/
theorem ReadScriptResults_diagnostic_texts (globals : Globals) (tk : TToolkit) (k : Nat)
    (hfail : firstFailureAt globals k) :
    (ReadScriptResults globals tk).2.terminal = tk.terminal ++
      [match k with
        | 0 => "Error: can't build package, 'newt' not defined!\n"
        | 1 => "Error: can't build package, 'newt.app' not defined!\n"
        | 2 => "Error: can't build package, 'newt.app.name' not defined!\n"
        | 3 => "Error: can't build package, 'newt.app.parts' not defined!\n"
        | 4 => "Error: can't build package, 'newt.app.parts[0]' not defined!\n"
        | 5 => "Error: can't build package, 'newt.app.parts[0].data' not defined!\n"
        | _ => "Error: can't build package, package symbol not defined! Expected in 'newt.app.parts[0].data'.\n"] := by
  have hk7 : k < 7 := by
    by_contra hge
    have hlen : (requiredConditions globals).length ≤ k := by
      simp only [requiredConditions, List.length_cons, List.length_nil]; omega
    have := hfail.1
    rw [List.getD_eq_default _ _ hlen] at this
    exact absurd this (by decide)
  rw [rsr_first_failure globals tk k hfail]
  obtain ⟨-, -, -, -, a5⟩ := afterName_fields globals tk
  obtain ⟨-, -, -, -, b5⟩ := afterPath_fields globals tk
  interval_cases k <;> simp [PrintErr, PrintStd, diagnostics, a5, b5]

/-- C8, amended, at a root without `app`. -/
theorem ReadScriptResults_diagnostic_texts_witness :
    (ReadScriptResults pathOnlyGraph builtToolkit).2.terminal =
      ["Error: can't build package, 'newt.app' not defined!\n"] :=
  ReadScriptResults_diagnostic_texts pathOnlyGraph builtToolkit 1 ⟨by decide, by decide⟩

section Pipeline

@[simp] theorem log_trace (w : World) (e : Event) : (w.log e).trace = w.trace ++ [e] := rfl
@[simp] theorem log_tk (w : World) (e : Event) : (w.log e).tk = w.tk := rfl
@[simp] theorem log_os (w : World) (e : Event) : (w.log e).os = w.os := rfl
@[simp] theorem log_globals (w : World) (e : Event) : (w.log e).globals = w.globals := rfl
@[simp] theorem log_script (w : World) (e : Event) :
    (w.log e).mCurrentScript = w.mCurrentScript := rfl

@[simp] theorem printStd_trace (w : World) (t : String) : (w.PrintStd t).trace = w.trace := rfl
@[simp] theorem printStd_os (w : World) (t : String) : (w.PrintStd t).os = w.os := rfl
@[simp] theorem printStd_globals (w : World) (t : String) :
    (w.PrintStd t).globals = w.globals := rfl
@[simp] theorem printStd_script (w : World) (t : String) :
    (w.PrintStd t).mCurrentScript = w.mCurrentScript := rfl
@[simp] theorem printStd_tk (w : World) (t : String) :
    (w.PrintStd t).tk = Einstein.PrintStd w.tk t := rfl

theorem forwardChannel_fields (w : World) (n : String) :
    (forwardChannel w n).trace = w.trace ++ [.NsGetGlobalVar n] ∧
    (forwardChannel w n).os = w.os ∧
    (forwardChannel w n).globals = w.globals ∧
    (forwardChannel w n).mCurrentScript = w.mCurrentScript ∧
    (forwardChannel w n).tk.mPkgPath = w.tk.mPkgPath ∧
    (forwardChannel w n).tk.mPkgName = w.tk.mPkgName ∧
    (forwardChannel w n).tk.mPkgSymbol = w.tk.mPkgSymbol ∧
    (forwardChannel w n).tk.mPkgLabel = w.tk.mPkgLabel := by
  simp only [forwardChannel]
  by_cases hs : NewtRefIsString (NsGetGlobalVar w.globals n) = true <;>
    simp [hs, Einstein.PrintStd]

theorem submitted_append (a b : List Event) :
    submitted (a ++ b) = submitted a ++ submitted b := by
  induction a with
  | nil => rfl
  | cons e es ih => cases e <;> simp [submitted, ih]

theorem messagesSent_append (a b : List Event) :
    messagesSent (a ++ b) = messagesSent a ++ messagesSent b := by
  induction a with
  | nil => rfl
  | cons e es ih => cases e <;> simp [messagesSent, ih]

theorem transmissions_append (a b : List Event) :
    transmissions (a ++ b) = transmissions a ++ transmissions b := by
  induction a with
  | nil => rfl
  | cons e es ih => cases e <;> simp [transmissions, ih]

theorem sprintf_pkgPath (path : String) :
    sprintf "newt.pkgPath := \"%s\";\n" [some path] =
      "newt.pkgPath := \"" ++ path ++ "\";\n" := rfl

theorem sprintf_uninstall (symbol name : String) :
    sprintf ("if HasSlot(GetRoot(), '|%s|) then begin\n" ++
        "  GetRoot().|%s|:Close();\n" ++
        "  SafeRemovePackage(GetPkgRef(\"%s\", GetStores()[0]))\n" ++
        "end;\n") [some symbol, some symbol, some name] =
      "if HasSlot(GetRoot(), '|" ++ symbol ++ "|) then begin\n  GetRoot().|" ++ symbol ++
        "|:Close();\n  SafeRemovePackage(GetPkgRef(\"" ++ name ++
        "\", GetStores()[0]))\nend;\n" := by
  have e : sprintf ("if HasSlot(GetRoot(), '|%s|) then begin\n" ++
        "  GetRoot().|%s|:Close();\n" ++
        "  SafeRemovePackage(GetPkgRef(\"%s\", GetStores()[0]))\n" ++
        "end;\n") [some symbol, some symbol, some name] =
      ⟨"if HasSlot(GetRoot(), '|".data ++ (symbol.data ++
        ("|) then begin\n  GetRoot().|".data ++ (symbol.data ++
        ("|:Close();\n  SafeRemovePackage(GetPkgRef(\"".data ++ (name.data ++
        "\", GetStores()[0]))\nend;\n".data)))))⟩ := rfl
  rw [e]
  apply String.ext
  simp only [String.data_append, List.append_assoc]

theorem sprintf_open (symbol : String) :
    sprintf "GetRoot().|%s|:Open();\n" [some symbol] =
      "GetRoot().|" ++ symbol ++ "|:Open();\n" := rfl

theorem chdir_fields (h : Host) (w : World) (path : String) :
    (chdir h w path).trace = w.trace ++ [.chdir path] ∧
    (chdir h w path).tk = w.tk ∧
    (chdir h w path).globals = w.globals ∧
    (chdir h w path).mCurrentScript = w.mCurrentScript ∧
    (chdir h w path).os.files = w.os.files ∧
    (chdir h w path).os.cwd = if h.chdirOk path w.os then path else w.os.cwd := by
  unfold chdir
  cases h.chdirOk path w.os <;> simp [World.log]

theorem remove_fields (h : Host) (w : World) (path : String) :
    (remove h w path).trace = w.trace ++ [.remove path] ∧
    (remove h w path).tk = w.tk ∧
    (remove h w path).globals = w.globals ∧
    (remove h w path).mCurrentScript = w.mCurrentScript ∧
    (remove h w path).os.cwd = w.os.cwd ∧
    (remove h w path).os.files =
      if h.removeOk path w.os then w.os.files.filter (fun f => f.1 != path)
      else w.os.files := by
  unfold remove
  cases h.removeOk path w.os <;> simp [World.log]

theorem SetTempPkgPath_fields (h : Host) (w : World) :
    (SetTempPkgPath h w).trace = w.trace ++ [.remove (h.getUserdataPath ++ "tmp.pkg")] ∧
    (SetTempPkgPath h w).tk = SetPkgPath w.tk (some (h.getUserdataPath ++ "tmp.pkg")) ∧
    (SetTempPkgPath h w).globals = w.globals ∧
    (SetTempPkgPath h w).mCurrentScript = w.mCurrentScript ∧
    (SetTempPkgPath h w).os.cwd = w.os.cwd ∧
    (SetTempPkgPath h w).os.files =
      if h.removeOk (h.getUserdataPath ++ "tmp.pkg") w.os then
        w.os.files.filter (fun f => f.1 != h.getUserdataPath ++ "tmp.pkg")
      else w.os.files := by
  unfold SetTempPkgPath
  obtain ⟨a, b, c, d, e, f⟩ := remove_fields h
    { w with tk := SetPkgPath w.tk (some (h.getUserdataPath ++ "tmp.pkg")) }
    (h.getUserdataPath ++ "tmp.pkg")
  exact ⟨a, b, c, d, e, f⟩

theorem enterScriptDirectory_fields (h : Host) (w : World) :
    (enterScriptDirectory h w).trace = w.trace ++
      (match w.mCurrentScript.filename with
        | some f => [Event.chdir (String.mk (f.data.take (h.fl_filename_name f)))]
        | none => []) ∧
    (enterScriptDirectory h w).tk = w.tk ∧
    (enterScriptDirectory h w).globals = w.globals ∧
    (enterScriptDirectory h w).mCurrentScript = w.mCurrentScript ∧
    (enterScriptDirectory h w).os.files = w.os.files := by
  unfold enterScriptDirectory
  cases hfn : w.mCurrentScript.filename with
  | none => simp
  | some f =>
    obtain ⟨a, b, c, d, e, -⟩ := chdir_fields h w (String.mk (f.data.take (h.fl_filename_name f)))
    exact ⟨a, b, c, d, e⟩

theorem startInterpreter_fields (h : Host) (w : World) :
    (startInterpreter h w).trace =
      w.trace ++ [.NewtInit, .RegisterToolkitScriptExtensions] ∧
    (startInterpreter h w).os = w.os ∧
    (startInterpreter h w).mCurrentScript = w.mCurrentScript := by
  simp [startInterpreter]

theorem assembleSource_trace (h : Host) (w : World) :
    (assembleSource h w).1.trace = w.trace ++
      (match w.mCurrentScript.filename with
        | some _ => if w.mCurrentScript.dirty then [Event.Save] else []
        | none => [Event.remove (h.getUserdataPath ++ "tmp.pkg")]) ∧
    (assembleSource h w).1.mCurrentScript.filename = w.mCurrentScript.filename := by
  unfold assembleSource
  cases hfn : w.mCurrentScript.filename with
  | none => simp [hfn, (SetTempPkgPath_fields h w).1, (SetTempPkgPath_fields h w).2.2.2.1]
  | some f =>
    cases hd : w.mCurrentScript.dirty <;> simp [hfn, hd, scriptSave]

theorem assembleSource_src (h : Host) (w : World) :
    (assembleSource h w).2 =
      h.NewtonDefs21 ++ h.BytecodeDefs ++ h.ToolkitDefs ++ h.DefaultPackage ++
        ("newt.pkgPath := \"" ++ pkgPathOf h w ++ "\";\n") ++ h.ToolkitLaunch ++
        userSourceOf h w ++ h.ToolkitDone := by
  unfold assembleSource pkgPathOf userSourceOf
  cases hfn : w.mCurrentScript.filename with
  | none =>
    simp [hfn, (SetTempPkgPath_fields h w).2.1, (SetTempPkgPath_fields h w).2.2.2.1,
      sprintf_pkgPath]
  | some f =>
    cases hd : w.mCurrentScript.dirty <;> simp [hfn, hd, scriptSave, sprintf_pkgPath]

theorem assembleSource_pkgPath (h : Host) (w : World) :
    (assembleSource h w).1.tk.mPkgPath = some (pkgPathOf h w) := by
  unfold assembleSource pkgPathOf
  cases hfn : w.mCurrentScript.filename with
  | none =>
    simp [hfn, (SetTempPkgPath_fields h w).2.1, (SetTempPkgPath_fields h w).2.2.2.1,
      Einstein.PrintStd]
  | some f =>
    cases hd : w.mCurrentScript.dirty <;> simp [hfn, hd, scriptSave, Einstein.PrintStd]

theorem interpretSource_trace (h : Host) (w : World) (src : String) :
    (interpretSource h w src).trace = w.trace ++
      (match w.mCurrentScript.filename with
        | some f => [Event.chdir (String.mk (f.data.take (h.fl_filename_name f)))]
        | none => []) ++
      [.NVMInterpretStr src, .chdir ((getcwd w.os (FL_PATH_MAX - 1)).getD h.uninitialized),
        .NsGetGlobalVar "_STDOUT_", .NsGetGlobalVar "_STDERR_"] ∧
    (interpretSource h w src).tk.mPkgPath = w.tk.mPkgPath := by
  unfold interpretSource
  simp [(chdir_fields _ _ _).1, (chdir_fields _ _ _).2.1, (enterScriptDirectory_fields h w).1,
    (enterScriptDirectory_fields h w).2.1, World.log, (forwardChannel_fields _ _).1,
    (forwardChannel_fields _ _).2.2.2.2.1]

theorem emitPackage_trace (h : Host) (w : World) :
    (emitPackage h w).trace = w.trace ++
      [.ReadScriptResults (ReadScriptResults w.globals w.tk).1] ++
      (if (ReadScriptResults w.globals w.tk).1 = 0 then
        [.NsGetGlobalVar "newt", .NcSend0 "writePkg"] else []) ++
      [.NcDefGlobalVar "_STDERR_", .NcDefGlobalVar "_STDOUT_", .NsGetGlobalVar "_STDOUT_",
        .NsGetGlobalVar "_STDERR_", .NewtCleanup] := by
  unfold emitPackage
  by_cases hr : (ReadScriptResults w.globals w.tk).1 = 0 <;>
    simp [hr, (forwardChannel_fields _ _).1]

theorem interpretSource_run (h : Host) (w : World) (src : String) :
    (interpretSource h w src).globals =
      (h.NVMInterpretStr (c_str src) (enterScriptDirectory h w).globals
        (enterScriptDirectory h w).os).1 ∧
    (interpretSource h w src).os.files =
      (h.NVMInterpretStr (c_str src) (enterScriptDirectory h w).globals
        (enterScriptDirectory h w).os).2.1.files ∧
    (interpretSource h w src).os.cwd =
      (if h.chdirOk ((getcwd w.os (FL_PATH_MAX - 1)).getD h.uninitialized)
          (h.NVMInterpretStr (c_str src) (enterScriptDirectory h w).globals
            (enterScriptDirectory h w).os).2.1
        then (getcwd w.os (FL_PATH_MAX - 1)).getD h.uninitialized
        else (h.NVMInterpretStr (c_str src) (enterScriptDirectory h w).globals
            (enterScriptDirectory h w).os).2.1.cwd) := by
  unfold interpretSource
  simp only [(forwardChannel_fields _ _).2.1, (forwardChannel_fields _ _).2.2.1,
    (chdir_fields _ _ _).2.2.1, (chdir_fields _ _ _).2.2.2.2.1, (chdir_fields _ _ _).2.2.2.2.2,
    World.log, and_self]

theorem enterScriptDirectory_cwd (h : Host) (w : World) :
    (enterScriptDirectory h w).os.cwd =
      (match w.mCurrentScript.filename with
        | some f =>
          if h.chdirOk (String.mk (f.data.take (h.fl_filename_name f))) w.os
          then String.mk (f.data.take (h.fl_filename_name f))
          else w.os.cwd
        | none => w.os.cwd) := by
  unfold enterScriptDirectory
  cases hfn : w.mCurrentScript.filename with
  | none => rfl
  | some f => exact (chdir_fields h w _).2.2.2.2.2

theorem interpreted_append (a b : List Event) :
    interpreted (a ++ b) = interpreted a ++ interpreted b := by
  unfold interpreted
  rw [submitted_append, List.map_append]

theorem beforeValidation_run (h : Host) (w : World) :
    (beforeValidation h w).globals = (interpreterRun h w).1 ∧
    (beforeValidation h w).os.files = (interpreterRun h w).2.1.files ∧
    (beforeValidation h w).os.cwd =
      (if h.chdirOk (previousPath h w) (interpreterRun h w).2.1 then previousPath h w
        else (interpreterRun h w).2.1.cwd) :=
  interpretSource_run h (assembleSource h (startInterpreter h w)).1
    (assembleSource h (startInterpreter h w)).2

theorem emitPackage_os (h : Host) (w : World) :
    (emitPackage h w).os =
      if (ReadScriptResults w.globals w.tk).1 = 0 then
        (h.NcSend0 (NsGetGlobalVar w.globals "newt") "writePkg" w.globals w.os).2
      else w.os := by
  unfold emitPackage
  by_cases hr : (ReadScriptResults w.globals w.tk).1 = 0 <;>
    simp [hr, (forwardChannel_fields _ _).2.1, World.log]

theorem emitPackage_fields (h : Host) (w : World) :
    (emitPackage h w).tk.mPkgPath = (ReadScriptResults w.globals w.tk).2.mPkgPath ∧
    (emitPackage h w).tk.mPkgName = (ReadScriptResults w.globals w.tk).2.mPkgName ∧
    (emitPackage h w).tk.mPkgSymbol = (ReadScriptResults w.globals w.tk).2.mPkgSymbol ∧
    (emitPackage h w).tk.mPkgLabel = (ReadScriptResults w.globals w.tk).2.mPkgLabel ∧
    ((ReadScriptResults w.globals w.tk).1 ≠ 0 → (emitPackage h w).os = w.os) := by
  unfold emitPackage
  by_cases hr : (ReadScriptResults w.globals w.tk).1 = 0 <;>
    simp [hr, (forwardChannel_fields _ _).2.1, (forwardChannel_fields _ _).2.2.2.2]

theorem AppBuild_eq (h : Host) (w : World) :
    AppBuild h w = emitPackage h (beforeValidation h w) := rfl

theorem beforeValidation_trace (h : Host) (w : World) :
    (beforeValidation h w).trace = w.trace ++
      [.NewtInit, .RegisterToolkitScriptExtensions] ++
      (match w.mCurrentScript.filename with
        | some _ => if w.mCurrentScript.dirty then [Event.Save] else []
        | none => [Event.remove (h.getUserdataPath ++ "tmp.pkg")]) ++
      (match w.mCurrentScript.filename with
        | some f => [Event.chdir (String.mk (f.data.take (h.fl_filename_name f)))]
        | none => []) ++
      [.NVMInterpretStr (assembleSource h (startInterpreter h w)).2,
        .chdir ((getcwd (assembleSource h (startInterpreter h w)).1.os
          (FL_PATH_MAX - 1)).getD h.uninitialized),
        .NsGetGlobalVar "_STDOUT_", .NsGetGlobalVar "_STDERR_"] := by
  unfold beforeValidation
  obtain ⟨s1, -, s3⟩ := startInterpreter_fields h w
  obtain ⟨a1, a2⟩ := assembleSource_trace h (startInterpreter h w)
  simp only [(interpretSource_trace h _ _).1, a1, a2, s1, s3]

theorem beforeValidation_pkgPath (h : Host) (w : World) :
    (beforeValidation h w).tk.mPkgPath = some (pkgPathOf h w) := by
  unfold beforeValidation
  simp only [(interpretSource_trace h _ _).2, assembleSource_pkgPath]
  unfold pkgPathOf
  rw [(startInterpreter_fields h w).2.2]

theorem rsr_pkgPath_isSome (globals : Globals) (tk : TToolkit) (p : String)
    (hp : tk.mPkgPath = some p) :
    ∃ q, (ReadScriptResults globals tk).2.mPkgPath = some q := by
  obtain ⟨a1, -⟩ := afterName_fields globals tk
  obtain ⟨b1, -⟩ := afterPath_fields globals tk
  have hb : ∃ q, (afterPath globals tk).mPkgPath = some q := by
    rw [b1]; split
    · exact ⟨_, rfl⟩
    · exact ⟨p, hp⟩
  rcases conditions_cases globals with hall | ⟨k, -, hk⟩
  · rw [rsr_all globals tk hall]
    simpa [Einstein.PrintStd, a1] using hb
  · rw [rsr_first_failure globals tk k hk]
    by_cases h0 : k = 0
    · exact ⟨p, by simp [h0, PrintErr, Einstein.PrintStd, hp]⟩
    · by_cases h2 : k ≤ 2
      · simpa [h0, h2, PrintErr, Einstein.PrintStd] using hb
      · simpa [h0, h2, PrintErr, Einstein.PrintStd, a1] using hb

theorem AppBuild_transmissions (h : Host) (w : World) :
    transmissions (AppBuild h w).trace = transmissions w.trace := by
  rw [AppBuild_eq, emitPackage_trace, beforeValidation_trace]
  simp only [transmissions_append]
  cases hfn : w.mCurrentScript.filename <;> split_ifs <;> simp [transmissions]

end Pipeline

/-- C4: in `AppBuild` the message `writePkg` is sent exactly once when
`ReadScriptResults` returns 0; the receiver is the value bound to `newt`, the
root object, which is a frame then, and the files and the working directory
after the build are the ones this send leaves. The message is not sent when
`ReadScriptResults` returns -1, and then the build leaves the files as they
were when validation started, so no package file is written or overwritten. -/
theorem AppBuild_writePkg (h : Host) (w : World) :
    ((ReadScriptResults (beforeValidation h w).globals (beforeValidation h w).tk).1 = 0 →
      messagesSent (AppBuild h w).trace = messagesSent w.trace ++ ["writePkg"] ∧
      NewtRefIsFrame (graphRoot (beforeValidation h w).globals) = true ∧
      (AppBuild h w).os =
        (h.NcSend0 (graphRoot (beforeValidation h w).globals) "writePkg"
          (beforeValidation h w).globals (beforeValidation h w).os).2) ∧
    ((ReadScriptResults (beforeValidation h w).globals (beforeValidation h w).tk).1 = -1 →
      messagesSent (AppBuild h w).trace = messagesSent w.trace ∧
      (AppBuild h w).os = (beforeValidation h w).os ∧
      (AppBuild h w).os.files = (beforeValidation h w).os.files) := by
  have hb : messagesSent (beforeValidation h w).trace = messagesSent w.trace := by
    rw [beforeValidation_trace]
    cases hfn : w.mCurrentScript.filename with
    | none => simp [messagesSent_append, messagesSent]
    | some f =>
      cases hd : w.mCurrentScript.dirty <;> simp [messagesSent_append, messagesSent]
  constructor
  · intro h0
    refine ⟨?_, ?_, ?_⟩
    · rw [AppBuild_eq, emitPackage_trace]
      simp [h0, messagesSent_append, messagesSent, hb]
    · exact (rsr_zero_iff _ _).1 h0 _ (by simp [requiredConditions])
    · rw [AppBuild_eq, emitPackage_os, if_pos h0]
      rfl
  · intro h1
    have hne : (ReadScriptResults (beforeValidation h w).globals
        (beforeValidation h w).tk).1 ≠ 0 := by rw [h1]; decide
    refine ⟨?_, ?_, ?_⟩
    · rw [AppBuild_eq, emitPackage_trace]
      simp [hne, messagesSent_append, messagesSent, hb]
    · rw [AppBuild_eq, emitPackage_os, if_neg hne]
    · rw [AppBuild_eq, emitPackage_os, if_neg hne]

/-- C4 at a build that validates, where the package appears at the path the
receiver names in its slot `pkgPath`, and at a build whose script leaves no
`newt` binding, where nothing is sent and the files are those the interpreter
run left. -/
theorem AppBuild_writePkg_witness :
    (messagesSent (AppBuild writerHost sampleWorld).trace = ["writePkg"] ∧
      (AppBuild writerHost sampleWorld).os.files =
        [("/tmp/hello.pkg", "package"), ("/home/u/hello.ns", "app();\n"),
          ("/home/u/old.pkg", "old package")]) ∧
    (messagesSent (AppBuild failingHost sampleWorld).trace = [] ∧
      (AppBuild failingHost sampleWorld).os.files =
        [("/home/u/hello.ns", "app();\n"), ("/home/u/old.pkg", "old package")]) :=
  ⟨⟨((AppBuild_writePkg writerHost sampleWorld).1 (by decide)).1,
    congrArg OS.files ((AppBuild_writePkg writerHost sampleWorld).1 (by decide)).2.2⟩,
   ⟨((AppBuild_writePkg failingHost sampleWorld).2 (by decide)).1,
    ((AppBuild_writePkg failingHost sampleWorld).2 (by decide)).2.2⟩⟩

/-- C10: after the build, `UserActionRun` makes exactly three transmissions, in
this order and with nothing in between: the uninstall-if-present command
rendered from the template with (symbol, symbol, name), the request to install
the package at the stored path, and the open command
"GetRoot().|<symbol>|:Open();". The uninstall command does not depend on what
was installed before, and the build itself transmits nothing. -/
theorem UserActionRun_transmissions (h : Host) (w : World) (symbol name : String)
    (hs : (afterBuild h w).tk.mPkgSymbol = some symbol)
    (hn : (afterBuild h w).tk.mPkgName = some name) :
    ∃ path, (afterBuild h w).tk.mPkgPath = some path ∧
      (UserActionRun h w).trace = (afterBuild h w).trace ++
        [.EvalNewtonScript ("if HasSlot(GetRoot(), '|" ++ symbol ++
            "|) then begin\n  GetRoot().|" ++ symbol ++
            "|:Close();\n  SafeRemovePackage(GetPkgRef(\"" ++ name ++
            "\", GetStores()[0]))\nend;\n"),
          .InstallPackagesFromURI (some path),
          .EvalNewtonScript ("GetRoot().|" ++ symbol ++ "|:Open();\n")] ∧
      transmissions (afterBuild h w).trace = transmissions w.trace := by
  have hpath : ∃ path, (afterBuild h w).tk.mPkgPath = some path := by
    unfold afterBuild
    rw [AppBuild_eq, (emitPackage_fields h _).1]
    exact rsr_pkgPath_isSome _ _ _ (beforeValidation_pkgPath h _)
  obtain ⟨path, hp⟩ := hpath
  refine ⟨path, hp, ?_, ?_⟩
  · have e : UserActionRun h w = AppRun (AppInstall (afterBuild h w)) := rfl
    rw [e]
    simp only [AppRun, AppInstall, log_trace, log_tk, printStd_tk, printStd_trace,
      Einstein.PrintStd, hs, hn, hp, sprintf_uninstall, sprintf_open, List.append_assoc,
      List.singleton_append, List.cons_append, List.nil_append]
  · unfold afterBuild
    rw [AppBuild_transmissions]
    cases hfn : w.mCurrentScript.filename <;>
      simp [scriptSave, transmissions_append, transmissions]

/-- C10 at a build of the sample script. -/
theorem UserActionRun_transmissions_witness :
    ∃ path, (afterBuild sampleHost sampleWorld).tk.mPkgPath = some path ∧
      (UserActionRun sampleHost sampleWorld).trace =
        (afterBuild sampleHost sampleWorld).trace ++
        [.EvalNewtonScript ("if HasSlot(GetRoot(), '|" ++ "Plain:SIG" ++
            "|) then begin\n  GetRoot().|" ++ "Plain:SIG" ++
            "|:Close();\n  SafeRemovePackage(GetPkgRef(\"" ++ "Plain:SIG" ++
            "\", GetStores()[0]))\nend;\n"),
          .InstallPackagesFromURI (some path),
          .EvalNewtonScript ("GetRoot().|" ++ "Plain:SIG" ++ "|:Open();\n")] ∧
      transmissions (afterBuild sampleHost sampleWorld).trace =
        transmissions sampleWorld.trace :=
  UserActionRun_transmissions sampleHost sampleWorld "Plain:SIG" "Plain:SIG"
    (by decide) (by decide)

section Deployment

theorem sprintf_stop (symbol : String) :
    sprintf ("if HasSlot(GetRoot(), '|%s|) then begin\n" ++
        "  GetRoot().|%s|:Close();\n" ++
        "end;\n") [some symbol, some symbol] =
      "if HasSlot(GetRoot(), '|" ++ symbol ++ "|) then begin\n" ++
        ("  GetRoot().|" ++ symbol ++ "|:Close();\n") ++ "end;\n" := by
  have e : sprintf ("if HasSlot(GetRoot(), '|%s|) then begin\n" ++
        "  GetRoot().|%s|:Close();\n" ++
        "end;\n") [some symbol, some symbol] =
      ⟨"if HasSlot(GetRoot(), '|".data ++ (symbol.data ++
        ("|) then begin\n".data ++ ("  GetRoot().|".data ++ (symbol.data ++
        ("|:Close();\n".data ++ "end;\n".data)))))⟩ := rfl
  rw [e]
  apply String.ext
  simp only [String.data_append, List.append_assoc]

theorem sprintf_uninstall_lines (symbol name : String) :
    sprintf ("if HasSlot(GetRoot(), '|%s|) then begin\n" ++
        "  GetRoot().|%s|:Close();\n" ++
        "  SafeRemovePackage(GetPkgRef(\"%s\", GetStores()[0]))\n" ++
        "end;\n") [some symbol, some symbol, some name] =
      "if HasSlot(GetRoot(), '|" ++ symbol ++ "|) then begin\n" ++
        ("  GetRoot().|" ++ symbol ++ "|:Close();\n") ++
        ("  SafeRemovePackage(GetPkgRef(\"" ++ name ++ "\", GetStores()[0]))\n") ++
        "end;\n" := by
  have e : sprintf ("if HasSlot(GetRoot(), '|%s|) then begin\n" ++
        "  GetRoot().|%s|:Close();\n" ++
        "  SafeRemovePackage(GetPkgRef(\"%s\", GetStores()[0]))\n" ++
        "end;\n") [some symbol, some symbol, some name] =
      ⟨"if HasSlot(GetRoot(), '|".data ++ (symbol.data ++
        ("|) then begin\n".data ++ ("  GetRoot().|".data ++ (symbol.data ++
        ("|:Close();\n".data ++ ("  SafeRemovePackage(GetPkgRef(\"".data ++ (name.data ++
        ("\", GetStores()[0]))\n".data ++ "end;\n".data))))))))⟩ := rfl
  rw [e]
  apply String.ext
  simp only [String.data_append, List.append_assoc]

end Deployment

/-- C11: for every symbol and name, the command `AppStop` transmits is the
uninstall command of `AppInstall` with the one removal line
`  SafeRemovePackage(GetPkgRef("<name>", GetStores()[0]))` deleted: the same
`HasSlot` guard on the symbol, the same `Close` call and the same closing
`end;`, and no mention of the package name. -/
theorem AppStop_is_uninstall_without_removal (w : World) (symbol name : String)
    (hs : w.tk.mPkgSymbol = some symbol) (hn : w.tk.mPkgName = some name) :
    (AppInstall w).trace = w.trace ++
      [.EvalNewtonScript
        ("if HasSlot(GetRoot(), '|" ++ symbol ++ "|) then begin\n" ++
          ("  GetRoot().|" ++ symbol ++ "|:Close();\n") ++
          ("  SafeRemovePackage(GetPkgRef(\"" ++ name ++ "\", GetStores()[0]))\n") ++
          "end;\n"),
        .InstallPackagesFromURI w.tk.mPkgPath] ∧
    (AppStop w).trace = w.trace ++
      [.EvalNewtonScript
        ("if HasSlot(GetRoot(), '|" ++ symbol ++ "|) then begin\n" ++
          ("  GetRoot().|" ++ symbol ++ "|:Close();\n") ++
          "end;\n")] := by
  constructor
  · simp only [AppInstall, log_trace, log_tk, printStd_tk, printStd_trace,
      Einstein.PrintStd, hs, hn, sprintf_uninstall_lines, List.append_assoc,
      List.singleton_append]
  · simp only [AppStop, log_trace, log_tk, printStd_tk, printStd_trace,
      Einstein.PrintStd, hs, sprintf_stop]

/-- C11 at the descriptor of an earlier build. -/
theorem AppStop_is_uninstall_without_removal_witness :
    (AppStop sampleWorld).trace =
      [.EvalNewtonScript
        ("if HasSlot(GetRoot(), '|" ++ "Old:SIG" ++ "|) then begin\n" ++
          ("  GetRoot().|" ++ "Old:SIG" ++ "|:Close();\n") ++
          "end;\n")] :=
  (AppStop_is_uninstall_without_removal sampleWorld "Old:SIG" "Old:SIG" rfl rfl).2

/-- C12: the limit of 256 characters is not enforced. The uninstall command
`AppInstall` transmits has `118 + 2 * |symbol| + |name|` characters and is
transmitted whatever its length, so with `2 * |symbol| + |name| >= 138` the
transmitted command has 256 characters or more. -/
theorem AppInstall_command_length (w : World) (symbol name : String)
    (hs : w.tk.mPkgSymbol = some symbol) (hn : w.tk.mPkgName = some name) :
    ∃ cmd, (AppInstall w).trace =
        w.trace ++ [.EvalNewtonScript cmd, .InstallPackagesFromURI w.tk.mPkgPath] ∧
      cmd.length = 118 + 2 * symbol.length + name.length ∧
      (138 ≤ 2 * symbol.length + name.length → 256 ≤ cmd.length) := by
  have hlen : ("if HasSlot(GetRoot(), '|" ++ symbol ++ "|) then begin\n" ++
          ("  GetRoot().|" ++ symbol ++ "|:Close();\n") ++
          ("  SafeRemovePackage(GetPkgRef(\"" ++ name ++ "\", GetStores()[0]))\n") ++
          "end;\n").length = 118 + 2 * symbol.length + name.length := by
    simp only [String.length_append]
    have e1 : "if HasSlot(GetRoot(), '|".length = 24 := by decide
    have e2 : "|) then begin\n".length = 14 := by decide
    have e3 : "  GetRoot().|".length = 13 := by decide
    have e4 : "|:Close();\n".length = 11 := by decide
    have e5 : "  SafeRemovePackage(GetPkgRef(\"".length = 31 := by decide
    have e6 : "\", GetStores()[0]))\n".length = 20 := by decide
    have e7 : "end;\n".length = 5 := by decide
    rw [e1, e2, e3, e4, e5, e6, e7]
    omega
  refine ⟨"if HasSlot(GetRoot(), '|" ++ symbol ++ "|) then begin\n" ++
          ("  GetRoot().|" ++ symbol ++ "|:Close();\n") ++
          ("  SafeRemovePackage(GetPkgRef(\"" ++ name ++ "\", GetStores()[0]))\n") ++
          "end;\n", ?_, hlen, ?_⟩
  · simp only [AppInstall, log_trace, log_tk, printStd_tk, printStd_trace,
      Einstein.PrintStd, hs, hn, sprintf_uninstall_lines, List.append_assoc,
      List.singleton_append]
  · intro h
    rw [hlen]
    omega

/-- C12 at a stored symbol of 69 characters and an empty name: the command
transmitted has 256 characters or more. -/
theorem AppInstall_command_length_witness :
    ∃ cmd, (AppInstall longSymbolWorld).trace =
        longSymbolWorld.trace ++
          [.EvalNewtonScript cmd, .InstallPackagesFromURI longSymbolWorld.tk.mPkgPath] ∧
      256 ≤ cmd.length := by
  obtain ⟨cmd, h1, -, h3⟩ := AppInstall_command_length longSymbolWorld
    (String.mk (List.replicate 65 'x') ++ ":SIG") "" rfl rfl
  exact ⟨cmd, h1, h3 (by decide)⟩

section Build

theorem directoryChanges_append (a b : List Event) :
    directoryChanges (a ++ b) = directoryChanges a ++ directoryChanges b := by
  induction a with
  | nil => rfl
  | cons e es ih => cases e <;> simp [directoryChanges, ih]

theorem startInterpreter_tk (h : Host) (w : World) :
    (startInterpreter h w).tk = { w.tk with terminal := [] } := by
  simp [startInterpreter]

theorem assembleSource_tk (h : Host) (w : World) :
    (assembleSource h w).1.tk.mPkgName = w.tk.mPkgName ∧
    (assembleSource h w).1.tk.mPkgSymbol = w.tk.mPkgSymbol ∧
    (assembleSource h w).1.tk.mPkgLabel = w.tk.mPkgLabel ∧
    (assembleSource h w).1.tk.terminal = w.tk.terminal ++
      [match w.mCurrentScript.filename with
        | some _ => "Compiling file...\n"
        | none => "Compiling inline...\n"] := by
  unfold assembleSource
  cases hfn : w.mCurrentScript.filename with
  | none =>
    simp [hfn, (SetTempPkgPath_fields h w).2.1, (SetTempPkgPath_fields h w).2.2.2.1,
      Einstein.PrintStd]
  | some f =>
    cases hd : w.mCurrentScript.dirty <;> simp [hfn, hd, scriptSave, Einstein.PrintStd]

theorem assembleSource_cwd (h : Host) (w : World)
    (hSave : ∀ s os, (h.Save s os).2.cwd = os.cwd) :
    (assembleSource h w).1.os.cwd = w.os.cwd := by
  unfold assembleSource
  cases hfn : w.mCurrentScript.filename with
  | none => simp [hfn, (SetTempPkgPath_fields h w).2.2.2.2.1, (SetTempPkgPath_fields h w).2.2.2.1]
  | some f =>
    cases hd : w.mCurrentScript.dirty <;> simp [hfn, hd, scriptSave, hSave]

theorem interpretSource_fields (h : Host) (w : World) (src : String) :
    (interpretSource h w src).tk.mPkgName = w.tk.mPkgName ∧
    (interpretSource h w src).tk.mPkgSymbol = w.tk.mPkgSymbol ∧
    (interpretSource h w src).tk.mPkgLabel = w.tk.mPkgLabel := by
  unfold interpretSource
  simp [(chdir_fields _ _ _).2.1, (enterScriptDirectory_fields h w).2.1, World.log,
    (forwardChannel_fields _ _).2.2.2.2]

/-- The second query of the channels follows their reset, so it forwards two
empty texts, whatever the interpreter session held. -/
theorem emitPackage_terminal (h : Host) (w : World) :
    (emitPackage h w).tk.terminal =
      (ReadScriptResults w.globals w.tk).2.terminal ++ ["", ""] := by
  unfold emitPackage
  by_cases hr : (ReadScriptResults w.globals w.tk).1 = 0 <;>
    simp [hr, forwardChannel, NcDefGlobalVar, NsGetGlobalVar, NewtRefIsString,
      NewtRefToString, Einstein.PrintStd]

theorem rsr_failure_symbol (globals : Globals) (tk : TToolkit)
    (hne : (ReadScriptResults globals tk).1 ≠ 0) :
    (ReadScriptResults globals tk).2.mPkgSymbol = tk.mPkgSymbol ∧
    (ReadScriptResults globals tk).2.mPkgLabel = tk.mPkgLabel := by
  obtain ⟨k, -, hk⟩ := rsr_failure_cases globals tk hne
  rw [rsr_first_failure globals tk k hk]
  obtain ⟨-, -, a3, a4, -⟩ := afterName_fields globals tk
  obtain ⟨-, -, b3, b4, -⟩ := afterPath_fields globals tk
  by_cases h0 : k = 0
  · simp [h0, PrintErr, Einstein.PrintStd]
  · by_cases h2 : k ≤ 2 <;> simp [h0, h2, PrintErr, Einstein.PrintStd, a3, a4, b3, b4]

theorem AppBuild_messagesSent (h : Host) (w : World) :
    messagesSent (AppBuild h w).trace = messagesSent w.trace ++
      (if (ReadScriptResults (beforeValidation h w).globals (beforeValidation h w).tk).1 = 0
        then ["writePkg"] else []) := by
  rw [AppBuild_eq, emitPackage_trace, beforeValidation_trace]
  simp only [messagesSent_append]
  cases hfn : w.mCurrentScript.filename <;> split_ifs <;> simp [messagesSent]

end Build

/-- C13, as stated, fails: the build starts in "/mnt/usb/", which cannot be
entered again afterwards. `AppBuild` calls `chdir` with the directory of the
script and, after the run, with the captured path; the second call fails, its
status is not looked at, and the build ends in the directory of the script. -/
theorem AppBuild_directory_not_restored :
    detachedWorld.os.cwd = "/mnt/usb/" ∧
    directoryChanges (AppBuild detachedHost detachedWorld).trace = ["/home/u/", "/mnt/usb/"] ∧
    (AppBuild detachedHost detachedWorld).os.cwd = "/home/u/" := by
  decide

/-- C13, amended: in every run `AppBuild` captures the working directory with
`getcwd`, calls `chdir` with the directory part of the script path right before
the interpreter call when and only when the script has a file path, and calls
`chdir` with the captured path right after the interpreter call, whatever the
interpreter returns; it makes no other `chdir` call and looks at no status. The
interpreter runs in the directory of the script when the first call succeeds
and in the unchanged directory otherwise; after the second call the directory
is the captured one when that call succeeds, and the one the interpreter run
left otherwise. The working directory after `AppBuild` equals the one before
it when the script object does not change it on saving, its path fits the
buffer of `getcwd`, the second `chdir` succeeds and the package writer does not
change it. -/
theorem AppBuild_directory_round_trip (h : Host) (w : World) :
    (∃ before after,
      (AppBuild h w).trace = w.trace ++ before ++
        (match w.mCurrentScript.filename with
          | some f => [Event.chdir (String.mk (f.data.take (h.fl_filename_name f)))]
          | none => []) ++
        [.NVMInterpretStr (assembleSource h (startInterpreter h w)).2,
          .chdir (previousPath h w)] ++ after ∧
      directoryChanges before = [] ∧ directoryChanges after = []) ∧
    ((assembleSource h (startInterpreter h w)).1.os.cwd.utf8ByteSize + 1 ≤ FL_PATH_MAX - 1 →
      previousPath h w = (assembleSource h (startInterpreter h w)).1.os.cwd) ∧
    (atInterpretation h w).os.cwd =
      (match w.mCurrentScript.filename with
        | some f =>
          if h.chdirOk (String.mk (f.data.take (h.fl_filename_name f)))
              (assembleSource h (startInterpreter h w)).1.os
          then String.mk (f.data.take (h.fl_filename_name f))
          else (assembleSource h (startInterpreter h w)).1.os.cwd
        | none => (assembleSource h (startInterpreter h w)).1.os.cwd) ∧
    (beforeValidation h w).globals =
      (h.NVMInterpretStr (c_str (assembleSource h (startInterpreter h w)).2)
        (atInterpretation h w).globals (atInterpretation h w).os).1 ∧
    (beforeValidation h w).os.cwd =
      (if h.chdirOk (previousPath h w) (interpreterRun h w).2.1 then previousPath h w
        else (interpreterRun h w).2.1.cwd) ∧
    (AppBuild h w).os.cwd =
      (if (ReadScriptResults (beforeValidation h w).globals (beforeValidation h w).tk).1 = 0
        then (h.NcSend0 (graphRoot (beforeValidation h w).globals) "writePkg"
          (beforeValidation h w).globals (beforeValidation h w).os).2.cwd
        else (beforeValidation h w).os.cwd) ∧
    ((∀ s os, (h.Save s os).2.cwd = os.cwd) →
      w.os.cwd.utf8ByteSize + 1 ≤ FL_PATH_MAX - 1 →
      h.chdirOk w.os.cwd (interpreterRun h w).2.1 = true →
      (h.NcSend0 (graphRoot (beforeValidation h w).globals) "writePkg"
        (beforeValidation h w).globals (beforeValidation h w).os).2.cwd =
          (beforeValidation h w).os.cwd →
      (AppBuild h w).os.cwd = w.os.cwd) := by
  have hfit : (assembleSource h (startInterpreter h w)).1.os.cwd.utf8ByteSize + 1 ≤
      FL_PATH_MAX - 1 →
      previousPath h w = (assembleSource h (startInterpreter h w)).1.os.cwd := by
    intro hle
    unfold previousPath getcwd
    rw [if_pos hle]
    rfl
  have hfinal : (AppBuild h w).os.cwd =
      (if (ReadScriptResults (beforeValidation h w).globals (beforeValidation h w).tk).1 = 0
        then (h.NcSend0 (graphRoot (beforeValidation h w).globals) "writePkg"
          (beforeValidation h w).globals (beforeValidation h w).os).2.cwd
        else (beforeValidation h w).os.cwd) := by
    rw [AppBuild_eq, emitPackage_os]
    split_ifs <;> rfl
  refine ⟨?_, hfit, ?_, (beforeValidation_run h w).1, (beforeValidation_run h w).2.2, hfinal, ?_⟩
  · refine ⟨[.NewtInit, .RegisterToolkitScriptExtensions] ++
        (match w.mCurrentScript.filename with
          | some _ => if w.mCurrentScript.dirty then [Event.Save] else []
          | none => [Event.remove (h.getUserdataPath ++ "tmp.pkg")]),
      [.NsGetGlobalVar "_STDOUT_", .NsGetGlobalVar "_STDERR_"] ++
        [.ReadScriptResults (ReadScriptResults (beforeValidation h w).globals
          (beforeValidation h w).tk).1] ++
        (if (ReadScriptResults (beforeValidation h w).globals
            (beforeValidation h w).tk).1 = 0 then
          [.NsGetGlobalVar "newt", .NcSend0 "writePkg"] else []) ++
        [.NcDefGlobalVar "_STDERR_", .NcDefGlobalVar "_STDOUT_", .NsGetGlobalVar "_STDOUT_",
          .NsGetGlobalVar "_STDERR_", .NewtCleanup], ?_, ?_, ?_⟩
    · rw [AppBuild_eq, emitPackage_trace, beforeValidation_trace]
      unfold previousPath
      simp only [List.append_assoc, List.cons_append, List.nil_append]
    · cases hfn : w.mCurrentScript.filename with
      | none => simp [directoryChanges]
      | some f => cases hd : w.mCurrentScript.dirty <;> simp [directoryChanges]
    · simp only [directoryChanges_append]
      split_ifs <;> simp [directoryChanges]
  · unfold atInterpretation
    rw [enterScriptDirectory_cwd, (assembleSource_trace h _).2, (startInterpreter_fields h w).2.2]
  · intro hSave hle hok hsend
    have hprev : (assembleSource h (startInterpreter h w)).1.os.cwd = w.os.cwd := by
      rw [assembleSource_cwd h _ hSave, (startInterpreter_fields h w).2.1]
    have hp : previousPath h w = w.os.cwd := by
      rw [hfit (by rw [hprev]; exact hle), hprev]
    rw [hfinal, hsend, ite_self, (beforeValidation_run h w).2.2, hp, if_pos hok]

/-- C13, amended, at builds of the sample script started in the root directory:
the interpreter runs in "/home/u/" (the interpreter of `echoHost` prints the
directory it runs in), and the build ends in the root directory. -/
theorem AppBuild_directory_round_trip_witness :
    (atInterpretation sampleHost sampleWorld).os.cwd = "/home/u/" ∧
    (AppBuild sampleHost sampleWorld).os.cwd = "/" ∧
    stringOf (NsGetGlobalVar (beforeValidation echoHost nulFileWorld).globals "_STDOUT_") =
      some ("/home/u/\n" ++ c_str (assembleSource echoHost
        (startInterpreter echoHost nulFileWorld)).2) :=
  ⟨(AppBuild_directory_round_trip sampleHost sampleWorld).2.2.1,
   (AppBuild_directory_round_trip sampleHost sampleWorld).2.2.2.2.2.2
     (fun s os => by obtain ⟨filename, -, -⟩ := s; cases filename <;> rfl)
     (by decide) (by decide) (by decide),
   congrArg (fun g => stringOf (NsGetGlobalVar g "_STDOUT_"))
     (AppBuild_directory_round_trip echoHost nulFileWorld).2.2.2.1⟩

/-- C15, evaluated where it fails: the package writer leaves "package
written" in the standard-output binding, and the second query of `AppBuild`
forwards two empty texts instead, because both bindings are reset right before
they are queried; the text never reaches the console. -/
theorem AppBuild_second_query_loses_output :
    stringOf (NsGetGlobalVar
      (chattyHost.NcSend0 .nil "writePkg" (beforeValidation chattyHost sampleWorld).globals
        (beforeValidation chattyHost sampleWorld).os).1 "_STDOUT_") =
      some "package written\n" ∧
    messagesSent (AppBuild chattyHost sampleWorld).trace = ["writePkg"] ∧
    (AppBuild chattyHost sampleWorld).tk.terminal =
      ["Compiling file...\n", "hello\n", "Info: package compiled.\n", "", ""] ∧
    "package written\n" ∉ (AppBuild chattyHost sampleWorld).tk.terminal := by
  decide

/-- C16, as stated, fails: the script file is missing, yet `AppBuild` submits a
compilation unit to the interpreter, validation runs and returns 0, the package
writer is called, and the console holds no error. -/
theorem AppBuild_missing_file_not_aborted :
    readFile missingFileWorld.os "/home/u/gone.ns" = "" ∧
    missingFileWorld.os.files.find? (fun f => f.1 == "/home/u/gone.ns") = none ∧
    submitted (AppBuild sampleHost missingFileWorld).trace =
      ["// newton defs\n// bytecode defs\n// toolkit defs\nnewt.app := nil;\n" ++
        "newt.pkgPath := \"/home/u/gone.pkg\";\n// launch\n// done\n"] ∧
    Event.ReadScriptResults 0 ∈ (AppBuild sampleHost missingFileWorld).trace ∧
    messagesSent (AppBuild sampleHost missingFileWorld).trace = ["writePkg"] ∧
    (AppBuild sampleHost missingFileWorld).tk.terminal =
      ["Compiling file...\n", "hello\n", "Info: package compiled.\n", "", ""] := by
  decide

/-- C16, amended: when the script has a file path and no file can be read at
that path, `AppBuild` does not abort. It embeds an empty user source, submits
the compilation unit made of the other fragments to the interpreter, calls
`ReadScriptResults`, and has written nothing but "Compiling file..." to the
console when the interpreter is invoked. -/
theorem AppBuild_missing_file (h : Host) (w : World) (f : String)
    (hf : w.mCurrentScript.filename = some f)
    (hmiss : (if w.mCurrentScript.dirty then (h.Save w.mCurrentScript w.os).2
      else w.os).files.find? (fun p => p.1 == f) = none) :
    submitted (AppBuild h w).trace = submitted w.trace ++
      [h.NewtonDefs21 ++ h.BytecodeDefs ++ h.ToolkitDefs ++ h.DefaultPackage ++
        ("newt.pkgPath := \"" ++ h.fl_filename_setext f ".pkg" ++ "\";\n") ++
        h.ToolkitLaunch ++ h.ToolkitDone] ∧
    (assembleSource h (startInterpreter h w)).1.tk.terminal = ["Compiling file...\n"] ∧
    ∃ before after, (AppBuild h w).trace = w.trace ++ before ++
      [.ReadScriptResults
        (ReadScriptResults (beforeValidation h w).globals (beforeValidation h w).tk).1] ++
      after := by
  have hu : userSourceOf h w = "" := by
    unfold userSourceOf
    simp only [hf]
    unfold readFile
    rw [hmiss]
  have hp : pkgPathOf h w = h.fl_filename_setext f ".pkg" := by
    unfold pkgPathOf
    simp only [hf]
  have e : (assembleSource h (startInterpreter h w)).2 =
      h.NewtonDefs21 ++ h.BytecodeDefs ++ h.ToolkitDefs ++ h.DefaultPackage ++
        ("newt.pkgPath := \"" ++ h.fl_filename_setext f ".pkg" ++ "\";\n") ++
        h.ToolkitLaunch ++ h.ToolkitDone := by
    rw [assembleSource_src]
    have e1 : pkgPathOf h (startInterpreter h w) = pkgPathOf h w := by
      unfold pkgPathOf
      rw [(startInterpreter_fields h w).2.2]
    have e2 : userSourceOf h (startInterpreter h w) = userSourceOf h w := by
      unfold userSourceOf
      rw [(startInterpreter_fields h w).2.2, (startInterpreter_fields h w).2.1]
    rw [e1, e2, hu, hp, String.append_empty]
  refine ⟨?_, ?_, ?_⟩
  · rw [AppBuild_eq, emitPackage_trace, beforeValidation_trace, e]
    cases hd : w.mCurrentScript.dirty <;> split_ifs <;>
      simp [hf, submitted_append, submitted]
  · rw [(assembleSource_tk h _).2.2.2, startInterpreter_tk, (startInterpreter_fields h w).2.2]
    simp [hf]
  · have hpre : ∃ calls, (beforeValidation h w).trace = w.trace ++ calls := by
      rw [beforeValidation_trace]
      simp only [List.append_assoc]
      exact ⟨_, rfl⟩
    obtain ⟨calls, hc⟩ := hpre
    rw [AppBuild_eq, emitPackage_trace, hc]
    simp only [List.append_assoc]
    exact ⟨calls, _, rfl⟩

/-- C16, amended, at the world whose script file is missing. -/
theorem AppBuild_missing_file_witness :
    (assembleSource sampleHost (startInterpreter sampleHost missingFileWorld)).1.tk.terminal =
      ["Compiling file...\n"] :=
  (AppBuild_missing_file sampleHost missingFileWorld "/home/u/gone.ns" rfl (by decide)).2.1

/-- C17, as stated, fails: for an unnamed script on a host that deletes no
file, `SetTempPkgPath` stores the temporary path and calls `::remove` on it,
the call fails, its status is not looked at, and the stale package is still
there when `SetTempPkgPath` returns and when `AppBuild` has assembled the
source. -/
theorem SetTempPkgPath_stale_file_kept :
    (SetTempPkgPath lockedHost staleTempWorld).tk.mPkgPath = some "/home/u/.einstein/tmp.pkg" ∧
    Event.remove "/home/u/.einstein/tmp.pkg" ∈ (SetTempPkgPath lockedHost staleTempWorld).trace ∧
    ("/home/u/.einstein/tmp.pkg", "stale") ∈ (SetTempPkgPath lockedHost staleTempWorld).os.files ∧
    ("/home/u/.einstein/tmp.pkg", "stale") ∈
      (assembleSource lockedHost staleTempWorld).1.os.files := by
  decide

/-- C17, amended: `SetTempPkgPath` stores the per-user data directory path
followed by "tmp.pkg", the same path whatever the state it is called in, and
calls `::remove` on that path once. When the removal succeeds no file exists at
that path afterwards while every other file is kept; when it fails the files
are as before. `AppBuild` uses it for an unnamed script, with the files it
leaves. -/
theorem SetTempPkgPath_fresh_path (h : Host) (w : World) :
    (SetTempPkgPath h w).tk.mPkgPath = some (h.getUserdataPath ++ "tmp.pkg") ∧
    (∀ w2, (SetTempPkgPath h w2).tk.mPkgPath = (SetTempPkgPath h w).tk.mPkgPath) ∧
    (SetTempPkgPath h w).trace = w.trace ++ [.remove (h.getUserdataPath ++ "tmp.pkg")] ∧
    (h.removeOk (h.getUserdataPath ++ "tmp.pkg") w.os = true →
      (∀ content,
        (h.getUserdataPath ++ "tmp.pkg", content) ∉ (SetTempPkgPath h w).os.files) ∧
      (∀ path content, path ≠ h.getUserdataPath ++ "tmp.pkg" →
        ((path, content) ∈ (SetTempPkgPath h w).os.files ↔ (path, content) ∈ w.os.files))) ∧
    (h.removeOk (h.getUserdataPath ++ "tmp.pkg") w.os = false →
      (SetTempPkgPath h w).os.files = w.os.files) ∧
    (SetTempPkgPath h w).os.cwd = w.os.cwd ∧
    (w.mCurrentScript.filename = none →
      (assembleSource h w).1.tk.mPkgPath = some (h.getUserdataPath ++ "tmp.pkg") ∧
      (assembleSource h w).1.os = (SetTempPkgPath h w).os) := by
  have hpath : ∀ v, (SetTempPkgPath h v).tk.mPkgPath = some (h.getUserdataPath ++ "tmp.pkg") := by
    intro v
    rw [(SetTempPkgPath_fields h v).2.1]
    unfold SetPkgPath
    by_cases hc : some (h.getUserdataPath ++ "tmp.pkg") = v.tk.mPkgPath
    · rw [if_pos hc]
      exact hc.symm
    · rw [if_neg hc]
  refine ⟨hpath w, fun w2 => by rw [hpath, hpath], (SetTempPkgPath_fields h w).1, ?_, ?_,
    (SetTempPkgPath_fields h w).2.2.2.2.1, ?_⟩
  · intro hok
    have hfiles := (SetTempPkgPath_fields h w).2.2.2.2.2
    rw [if_pos hok] at hfiles
    constructor
    · intro content hmem
      rw [hfiles, List.mem_filter] at hmem
      simp at hmem
    · intro path content hne
      rw [hfiles, List.mem_filter]
      simp [hne]
  · intro hfail
    have hfiles := (SetTempPkgPath_fields h w).2.2.2.2.2
    rw [hfail] at hfiles
    simpa using hfiles
  · intro hfn
    have e : (assembleSource h w).1.os = (SetTempPkgPath h w).os ∧
        (assembleSource h w).1.tk.mPkgPath = (SetTempPkgPath h w).tk.mPkgPath := by
      unfold assembleSource
      simp [hfn, (SetTempPkgPath_fields h w).2.2.2.1, World.PrintStd, Einstein.PrintStd]
    exact ⟨e.2.trans (hpath w), e.1⟩

/-- C17, amended, at an unnamed script with a stale temporary package, on a
host that deletes files. -/
theorem SetTempPkgPath_fresh_path_witness :
    ("/home/u/.einstein/tmp.pkg", "stale") ∈ staleTempWorld.os.files ∧
    (assembleSource sampleHost staleTempWorld).1.tk.mPkgPath =
      some ("/home/u/.einstein/" ++ "tmp.pkg") ∧
    ("/home/u/.einstein/" ++ "tmp.pkg", "stale") ∉
      (SetTempPkgPath sampleHost staleTempWorld).os.files ∧
    (assembleSource sampleHost staleTempWorld).1.os =
      (SetTempPkgPath sampleHost staleTempWorld).os :=
  ⟨by decide,
   ((SetTempPkgPath_fresh_path sampleHost staleTempWorld).2.2.2.2.2.2 rfl).1,
   ((SetTempPkgPath_fresh_path sampleHost staleTempWorld).2.2.2.1 rfl).1 "stale",
   ((SetTempPkgPath_fresh_path sampleHost staleTempWorld).2.2.2.2.2.2 rfl).2⟩

/-- C20: `UserActionInstall` and `UserActionRun` deploy whatever the build
outcome. In every state the uninstall command and the install request are
transmitted after the build, rendered from the descriptor fields then stored;
when `ReadScriptResults` returned -1 no package was written by the build and
the symbol used is the one stored before the build. -/
theorem UserAction_deploys_after_any_build (h : Host) (w : World) :
    (UserActionInstall h w).trace = (afterBuild h w).trace ++
      [.EvalNewtonScript
        (sprintf ("if HasSlot(GetRoot(), '|%s|) then begin\n" ++
            "  GetRoot().|%s|:Close();\n" ++
            "  SafeRemovePackage(GetPkgRef(\"%s\", GetStores()[0]))\n" ++
            "end;\n")
          [(afterBuild h w).tk.mPkgSymbol, (afterBuild h w).tk.mPkgSymbol,
            (afterBuild h w).tk.mPkgName]),
        .InstallPackagesFromURI (afterBuild h w).tk.mPkgPath] ∧
    (UserActionRun h w).trace = (afterBuild h w).trace ++
      [.EvalNewtonScript
        (sprintf ("if HasSlot(GetRoot(), '|%s|) then begin\n" ++
            "  GetRoot().|%s|:Close();\n" ++
            "  SafeRemovePackage(GetPkgRef(\"%s\", GetStores()[0]))\n" ++
            "end;\n")
          [(afterBuild h w).tk.mPkgSymbol, (afterBuild h w).tk.mPkgSymbol,
            (afterBuild h w).tk.mPkgName]),
        .InstallPackagesFromURI (afterBuild h w).tk.mPkgPath,
        .EvalNewtonScript
          (sprintf "GetRoot().|%s|:Open();\n" [(afterBuild h w).tk.mPkgSymbol])] ∧
    ((ReadScriptResults
        (beforeValidation h
          (if w.mCurrentScript.filename.isSome then scriptSave h w else w)).globals
        (beforeValidation h
          (if w.mCurrentScript.filename.isSome then scriptSave h w else w)).tk).1 = -1 →
      messagesSent (afterBuild h w).trace = messagesSent w.trace ∧
      (afterBuild h w).tk.mPkgSymbol = w.tk.mPkgSymbol) := by
  refine ⟨?_, ?_, ?_⟩
  · have e : UserActionInstall h w = AppInstall (afterBuild h w) := rfl
    rw [e]
    simp only [AppInstall, log_trace, log_tk, printStd_tk, printStd_trace,
      Einstein.PrintStd, List.append_assoc, List.singleton_append]
  · have e : UserActionRun h w = AppRun (AppInstall (afterBuild h w)) := rfl
    rw [e]
    simp only [AppRun, AppInstall, log_trace, log_tk, printStd_tk, printStd_trace,
      Einstein.PrintStd, List.append_assoc, List.singleton_append, List.cons_append,
      List.nil_append]
  · intro hret
    have hne : (ReadScriptResults
        (beforeValidation h
          (if w.mCurrentScript.filename.isSome then scriptSave h w else w)).globals
        (beforeValidation h
          (if w.mCurrentScript.filename.isSome then scriptSave h w else w)).tk).1 ≠ 0 := by
      rw [hret]; decide
    have hsaved : messagesSent
          (if w.mCurrentScript.filename.isSome then scriptSave h w else w).trace =
          messagesSent w.trace ∧
        (if w.mCurrentScript.filename.isSome then scriptSave h w else w).tk = w.tk := by
      cases hfn : w.mCurrentScript.filename <;>
        simp [scriptSave, messagesSent_append, messagesSent]
    constructor
    · unfold afterBuild
      rw [AppBuild_messagesSent, if_neg hne, List.append_nil, hsaved.1]
    · unfold afterBuild
      rw [AppBuild_eq, (emitPackage_fields h _).2.2.1, (rsr_failure_symbol _ _ hne).1]
      unfold beforeValidation
      rw [(interpretSource_fields h _ _).2.1, (assembleSource_tk h _).2.1,
        startInterpreter_tk, hsaved.2]

/-- C20 at a build whose script leaves no `newt` binding: nothing is written,
and the earlier symbol is deployed. -/
theorem UserAction_deploys_after_any_build_witness :
    messagesSent (afterBuild failingHost sampleWorld).trace = [] ∧
    transmissions (UserActionInstall failingHost sampleWorld).trace =
      [.EvalNewtonScript
        ("if HasSlot(GetRoot(), '|Old:SIG|) then begin\n  GetRoot().|Old:SIG|:Close();\n" ++
          "  SafeRemovePackage(GetPkgRef(\"Old:SIG\", GetStores()[0]))\nend;\n"),
        .InstallPackagesFromURI (some "/home/u/hello.pkg")] := by
  refine ⟨((UserAction_deploys_after_any_build failingHost sampleWorld).2.2 (by decide)).1, ?_⟩
  decide

section RecentFiles

theorem set_item0_tail (items : List Fl_Menu_Item) (path : String) :
    (set_recent_file_menu_item items 0 path).drop 1 = items.drop 1 := by
  unfold set_recent_file_menu_item
  cases items
  · simp
  · simp only [List.getD_cons_zero, List.set_cons_zero, List.drop_succ_cons, List.drop_zero]
    split_ifs <;> simp

theorem clearLoop_tail (n : Nat) (items : List Fl_Menu_Item) :
    (clearLoop items n).drop 1 = items.drop 1 := by
  induction n generalizing items with
  | zero => rfl
  | succ n ih => rw [clearLoop, ih, set_item0_tail]

/-- The rounds of `ClearRecentFileMenu` all write to entry 0, so the entries
after the first keep their items. -/
theorem ClearRecentFileMenu_tail (m : RecentMenu) :
    (ClearRecentFileMenu m).wTKOpenRecentMenu.drop 1 = m.wTKOpenRecentMenu.drop 1 := by
  have e := clearLoop_tail 8 m.wTKOpenRecentMenu
  simpa [ClearRecentFileMenu, SaveRecentFileMenu] using e

theorem searchLoop_hit (items : List Fl_Menu_Item) (f : String) (n i : Nat)
    (h : (items.getD i nullItem).user_data_ = some f) :
    searchLoop items f (n + 1) i = i := by
  rw [searchLoop, if_pos h]

theorem searchLoop_miss (items : List Fl_Menu_Item) (f : String) (n i : Nat)
    (h : (items.getD i nullItem).user_data_ ≠ some f) :
    searchLoop items f (n + 1) i = searchLoop items f n (i + 1) := by
  rw [searchLoop, if_neg h]

theorem update_paths (a0 a1 a2 a3 a4 a5 a6 a7 : Fl_Menu_Item)
    (prefs : List (Option String)) (saves : Nat) (f : String) (hf : f ≠ "") :
    recentPaths (UpdateRecentFileMenu ⟨[a0, a1, a2, a3, a4, a5, a6, a7], prefs, saves⟩ (some f)) =
      some f :: (if some f ∈ recentPaths ⟨[a0, a1, a2, a3, a4, a5, a6, a7], prefs, saves⟩ then
        (recentPaths ⟨[a0, a1, a2, a3, a4, a5, a6, a7], prefs, saves⟩).erase (some f)
        else (recentPaths ⟨[a0, a1, a2, a3, a4, a5, a6, a7], prefs, saves⟩).dropLast) := by
  have hR : recentPaths ⟨[a0, a1, a2, a3, a4, a5, a6, a7], prefs, saves⟩ =
      [a0.user_data_, a1.user_data_, a2.user_data_, a3.user_data_, a4.user_data_,
        a5.user_data_, a6.user_data_, a7.user_data_] := rfl
  rw [hR]
  by_cases h0 : a0.user_data_ = some f
  · have hs : searchLoop [a0, a1, a2, a3, a4, a5, a6, a7] f 8 0 = 0 := by
      simp [searchLoop, h0]
    have hL : UpdateRecentFileMenu ⟨[a0, a1, a2, a3, a4, a5, a6, a7], prefs, saves⟩ (some f) =
        ⟨[a0, a1, a2, a3, a4, a5, a6, a7], prefs, saves⟩ := by
      simp only [UpdateRecentFileMenu, hs]
      rw [if_neg hf, if_neg (by decide), if_neg (by decide)]
    rw [hL, hR]
    simp [h0, List.erase_cons]
  by_cases h1 : a1.user_data_ = some f
  · have hs : searchLoop [a0, a1, a2, a3, a4, a5, a6, a7] f 8 0 = 1 := by
      simp [searchLoop, h0, h1]
    have hL : recentPaths
        (UpdateRecentFileMenu ⟨[a0, a1, a2, a3, a4, a5, a6, a7], prefs, saves⟩ (some f)) =
        [a1.user_data_, a0.user_data_, a2.user_data_, a3.user_data_, a4.user_data_, a5.user_data_, a6.user_data_, a7.user_data_] := by
      simp only [UpdateRecentFileMenu, hs]
      rw [if_neg hf, if_neg (by decide), if_pos (by decide)]
      rfl
    rw [hL]
    simp [h0, h1, List.erase_cons]
  by_cases h2 : a2.user_data_ = some f
  · have hs : searchLoop [a0, a1, a2, a3, a4, a5, a6, a7] f 8 0 = 2 := by
      simp [searchLoop, h0, h1, h2]
    have hL : recentPaths
        (UpdateRecentFileMenu ⟨[a0, a1, a2, a3, a4, a5, a6, a7], prefs, saves⟩ (some f)) =
        [a2.user_data_, a0.user_data_, a1.user_data_, a3.user_data_, a4.user_data_, a5.user_data_, a6.user_data_, a7.user_data_] := by
      simp only [UpdateRecentFileMenu, hs]
      rw [if_neg hf, if_neg (by decide), if_pos (by decide)]
      rfl
    rw [hL]
    simp [h0, h1, h2, List.erase_cons]
  by_cases h3 : a3.user_data_ = some f
  · have hs : searchLoop [a0, a1, a2, a3, a4, a5, a6, a7] f 8 0 = 3 := by
      simp [searchLoop, h0, h1, h2, h3]
    have hL : recentPaths
        (UpdateRecentFileMenu ⟨[a0, a1, a2, a3, a4, a5, a6, a7], prefs, saves⟩ (some f)) =
        [a3.user_data_, a0.user_data_, a1.user_data_, a2.user_data_, a4.user_data_, a5.user_data_, a6.user_data_, a7.user_data_] := by
      simp only [UpdateRecentFileMenu, hs]
      rw [if_neg hf, if_neg (by decide), if_pos (by decide)]
      rfl
    rw [hL]
    simp [h0, h1, h2, h3, List.erase_cons]
  by_cases h4 : a4.user_data_ = some f
  · have hs : searchLoop [a0, a1, a2, a3, a4, a5, a6, a7] f 8 0 = 4 := by
      simp [searchLoop, h0, h1, h2, h3, h4]
    have hL : recentPaths
        (UpdateRecentFileMenu ⟨[a0, a1, a2, a3, a4, a5, a6, a7], prefs, saves⟩ (some f)) =
        [a4.user_data_, a0.user_data_, a1.user_data_, a2.user_data_, a3.user_data_, a5.user_data_, a6.user_data_, a7.user_data_] := by
      simp only [UpdateRecentFileMenu, hs]
      rw [if_neg hf, if_neg (by decide), if_pos (by decide)]
      rfl
    rw [hL]
    simp [h0, h1, h2, h3, h4, List.erase_cons]
  by_cases h5 : a5.user_data_ = some f
  · have hs : searchLoop [a0, a1, a2, a3, a4, a5, a6, a7] f 8 0 = 5 := by
      simp [searchLoop, h0, h1, h2, h3, h4, h5]
    have hL : recentPaths
        (UpdateRecentFileMenu ⟨[a0, a1, a2, a3, a4, a5, a6, a7], prefs, saves⟩ (some f)) =
        [a5.user_data_, a0.user_data_, a1.user_data_, a2.user_data_, a3.user_data_, a4.user_data_, a6.user_data_, a7.user_data_] := by
      simp only [UpdateRecentFileMenu, hs]
      rw [if_neg hf, if_neg (by decide), if_pos (by decide)]
      rfl
    rw [hL]
    simp [h0, h1, h2, h3, h4, h5, List.erase_cons]
  by_cases h6 : a6.user_data_ = some f
  · have hs : searchLoop [a0, a1, a2, a3, a4, a5, a6, a7] f 8 0 = 6 := by
      simp [searchLoop, h0, h1, h2, h3, h4, h5, h6]
    have hL : recentPaths
        (UpdateRecentFileMenu ⟨[a0, a1, a2, a3, a4, a5, a6, a7], prefs, saves⟩ (some f)) =
        [a6.user_data_, a0.user_data_, a1.user_data_, a2.user_data_, a3.user_data_, a4.user_data_, a5.user_data_, a7.user_data_] := by
      simp only [UpdateRecentFileMenu, hs]
      rw [if_neg hf, if_neg (by decide), if_pos (by decide)]
      rfl
    rw [hL]
    simp [h0, h1, h2, h3, h4, h5, h6, List.erase_cons]
  by_cases h7 : a7.user_data_ = some f
  · have hs : searchLoop [a0, a1, a2, a3, a4, a5, a6, a7] f 8 0 = 7 := by
      simp [searchLoop, h0, h1, h2, h3, h4, h5, h6, h7]
    have hL : recentPaths
        (UpdateRecentFileMenu ⟨[a0, a1, a2, a3, a4, a5, a6, a7], prefs, saves⟩ (some f)) =
        [a7.user_data_, a0.user_data_, a1.user_data_, a2.user_data_, a3.user_data_, a4.user_data_, a5.user_data_, a6.user_data_] := by
      simp only [UpdateRecentFileMenu, hs]
      rw [if_neg hf, if_neg (by decide), if_pos (by decide)]
      rfl
    rw [hL]
    simp [h0, h1, h2, h3, h4, h5, h6, h7, List.erase_cons]
  have hs : searchLoop [a0, a1, a2, a3, a4, a5, a6, a7] f 8 0 = 8 := by
    simp [searchLoop, h0, h1, h2, h3, h4, h5, h6, h7]
  have hL : recentPaths
      (UpdateRecentFileMenu ⟨[a0, a1, a2, a3, a4, a5, a6, a7], prefs, saves⟩ (some f)) =
      [some f, a0.user_data_, a1.user_data_, a2.user_data_, a3.user_data_, a4.user_data_,
        a5.user_data_, a6.user_data_] := by
    simp only [UpdateRecentFileMenu, hs]
    rw [if_neg hf, if_pos trivial]
    simp only [shiftLoop, List.getD_cons_succ, List.getD_cons_zero, List.set_cons_succ,
      List.set_cons_zero, set_recent_file_menu_item]
    rw [if_neg h7, if_pos hf]
    rfl
  have n0 : ¬ some f = a0.user_data_ := fun e => h0 e.symm
  have n1 : ¬ some f = a1.user_data_ := fun e => h1 e.symm
  have n2 : ¬ some f = a2.user_data_ := fun e => h2 e.symm
  have n3 : ¬ some f = a3.user_data_ := fun e => h3 e.symm
  have n4 : ¬ some f = a4.user_data_ := fun e => h4 e.symm
  have n5 : ¬ some f = a5.user_data_ := fun e => h5 e.symm
  have n6 : ¬ some f = a6.user_data_ := fun e => h6 e.symm
  have n7 : ¬ some f = a7.user_data_ := fun e => h7 e.symm
  rw [hL]
  simp [n0, n1, n2, n3, n4, n5, n6, n7]

theorem erase_first_getElem? {α : Type} [BEq α] [LawfulBEq α] (x : α) :
    ∀ (l : List α) (i : Nat), l[i]? = some x → (∀ j, j < i → l[j]? ≠ some x) →
      (∀ j, j < i → (l.erase x)[j]? = l[j]?) ∧ (∀ j, i ≤ j → (l.erase x)[j]? = l[j + 1]?) := by
  intro l
  induction l with
  | nil => intro i hi; simp at hi
  | cons a t ih =>
    intro i hi hfirst
    by_cases hax : a = x
    · have hi0 : i = 0 := by
        by_contra hne
        exact hfirst 0 (Nat.pos_of_ne_zero hne) (by simp [hax])
      subst hi0
      subst hax
      simp
    · cases i with
      | zero => simp at hi; exact absurd hi hax
      | succ i =>
        have hi' : t[i]? = some x := by simpa using hi
        have hfirst' : ∀ j, j < i → t[j]? ≠ some x := by
          intro j hj
          have := hfirst (j + 1) (by omega)
          simpa using this
        obtain ⟨ih1, ih2⟩ := ih i hi' hfirst'
        have he : (a :: t).erase x = a :: t.erase x := by
          rw [List.erase_cons]
          simp [hax]
        rw [he]
        constructor
        · intro j hj
          cases j with
          | zero => simp
          | succ j => simpa using ih1 j (by omega)
        · intro j hj
          cases j with
          | zero => omega
          | succ j => simpa using ih2 j (by omega)

theorem searchLoop_ge (items : List Fl_Menu_Item) (f : String) :
    ∀ n i, i ≤ searchLoop items f n i := by
  intro n
  induction n with
  | zero => intro i; simp [searchLoop]
  | succ n ih =>
    intro i
    rw [searchLoop]
    split
    · exact Nat.le_refl i
    · exact Nat.le_trans (Nat.le_succ i) (ih (i + 1))

theorem shiftLoop_length (i : Nat) :
    ∀ items : List Fl_Menu_Item, (shiftLoop items i).length = items.length := by
  induction i with
  | zero => intro items; rfl
  | succ i ih => intro items; rw [shiftLoop, ih, List.length_set]

theorem set_item_length (items : List Fl_Menu_Item) (i : Nat) (path : String) :
    (set_recent_file_menu_item items i path).length = items.length := by
  unfold set_recent_file_menu_item
  by_cases h1 : (items.getD i nullItem).user_data_ = some path
  · simp only [h1, if_true]
  · simp only [h1, if_false]
    split_ifs <;> simp

theorem save_preferences (m : RecentMenu) (hlen : m.wTKOpenRecentMenu.length = 8) :
    (SaveRecentFileMenu m).preferences = recentPaths m ∧
    (SaveRecentFileMenu m).saves = m.saves + 1 ∧
    (SaveRecentFileMenu m).wTKOpenRecentMenu = m.wTKOpenRecentMenu := by
  obtain ⟨items, prefs, saves⟩ := m
  match items, hlen with
  | [a0, a1, a2, a3, a4, a5, a6, a7], _ => exact ⟨rfl, rfl, rfl⟩

theorem save_ok (m : RecentMenu) (hlen : m.wTKOpenRecentMenu.length = 8) :
    (SaveRecentFileMenu m).saves = m.saves + 1 ∧
    (SaveRecentFileMenu m).preferences = recentPaths (SaveRecentFileMenu m) := by
  obtain ⟨s1, s2, s3⟩ := save_preferences m hlen
  refine ⟨s2, ?_⟩
  rw [s1]
  unfold recentPaths
  rw [s3]

/-- When the new file is not the first entry the menu is rebuilt and saved. -/
theorem update_saved (m : RecentMenu) (f : String) (hf : f ≠ "")
    (hlen : m.wTKOpenRecentMenu.length = 8)
    (h0 : (m.wTKOpenRecentMenu.getD 0 nullItem).user_data_ ≠ some f) :
    (UpdateRecentFileMenu m (some f)).saves = m.saves + 1 ∧
    (UpdateRecentFileMenu m (some f)).preferences =
      recentPaths (UpdateRecentFileMenu m (some f)) := by
  have hs : searchLoop m.wTKOpenRecentMenu f 8 0 ≠ 0 := by
    rw [searchLoop_miss _ f 7 0 h0]
    have := searchLoop_ge m.wTKOpenRecentMenu f 7 (0 + 1)
    omega
  simp only [UpdateRecentFileMenu]
  rw [if_neg hf]
  by_cases h8 : searchLoop m.wTKOpenRecentMenu f 8 0 = 8
  · rw [if_pos h8]
    exact save_ok _ (by
      show (set_recent_file_menu_item _ 0 f).length = 8
      rw [set_item_length, List.length_set, shiftLoop_length, hlen])
  · rw [if_neg h8, if_pos hs]
    exact save_ok _ (by
      show (List.set _ 0 _).length = 8
      rw [List.length_set, shiftLoop_length, hlen])

/-- When the new file is the first entry nothing is done. -/
theorem update_unchanged (m : RecentMenu) (f : String) (hf : f ≠ "")
    (h0 : (m.wTKOpenRecentMenu.getD 0 nullItem).user_data_ = some f) :
    UpdateRecentFileMenu m (some f) = m := by
  simp only [UpdateRecentFileMenu]
  rw [if_neg hf, searchLoop_hit _ f 7 0 h0, if_neg (by decide), if_neg (by decide)]

theorem update_compact (m : RecentMenu) (f : String) (hf : f ≠ "")
    (hlen : m.wTKOpenRecentMenu.length = 8) :
    recentPaths (UpdateRecentFileMenu m (some f)) =
      some f :: (if some f ∈ recentPaths m then (recentPaths m).erase (some f)
        else (recentPaths m).dropLast) := by
  obtain ⟨items, prefs, saves⟩ := m
  match items, hlen with
  | [a0, a1, a2, a3, a4, a5, a6, a7], _ => exact update_paths a0 a1 a2 a3 a4 a5 a6 a7 prefs saves f hf

theorem first_path (m : RecentMenu) (hlen : m.wTKOpenRecentMenu.length = 8) :
    (recentPaths m)[0]? = some (m.wTKOpenRecentMenu.getD 0 nullItem).user_data_ := by
  obtain ⟨items, prefs, saves⟩ := m
  match items, hlen with
  | [a0, a1, a2, a3, a4, a5, a6, a7], _ => rfl

end RecentFiles

/-- C18: for every non-empty file path `f` and every recent-file list of eight
entries, after `UpdateRecentFileMenu(f)` the first entry is `f`, the list still
has eight entries, and the other entries keep their order. If `f` was in the
list, first at position `i`, entries `0..i-1` move down by one and the entries
after `i` stay; if `f` was not in the list, all entries move down by one and
the former eighth entry is dropped. Nothing is done and nothing is saved when
`f` was already first; otherwise the list changes and is saved to the
preferences. -/
theorem UpdateRecentFileMenu_moves_to_front (m : RecentMenu) (f : String) (hf : f ≠ "")
    (hlen : m.wTKOpenRecentMenu.length = 8) :
    recentPaths (UpdateRecentFileMenu m (some f)) =
      some f :: (if some f ∈ recentPaths m then (recentPaths m).erase (some f)
        else (recentPaths m).dropLast) ∧
    (recentPaths (UpdateRecentFileMenu m (some f))).length = 8 ∧
    (∀ i, (recentPaths m)[i]? = some (some f) →
      (∀ j, j < i → (recentPaths m)[j]? ≠ some (some f)) →
      (∀ j, j < i →
        (recentPaths (UpdateRecentFileMenu m (some f)))[j + 1]? = (recentPaths m)[j]?) ∧
      (∀ j, i < j →
        (recentPaths (UpdateRecentFileMenu m (some f)))[j]? = (recentPaths m)[j]?)) ∧
    (some f ∉ recentPaths m → ∀ j, j < 7 →
      (recentPaths (UpdateRecentFileMenu m (some f)))[j + 1]? = (recentPaths m)[j]?) ∧
    ((recentPaths m)[0]? = some (some f) → UpdateRecentFileMenu m (some f) = m) ∧
    ((recentPaths m)[0]? ≠ some (some f) →
      recentPaths (UpdateRecentFileMenu m (some f)) ≠ recentPaths m ∧
      (UpdateRecentFileMenu m (some f)).saves = m.saves + 1 ∧
      (UpdateRecentFileMenu m (some f)).preferences =
        recentPaths (UpdateRecentFileMenu m (some f))) := by
  have hc := update_compact m f hf hlen
  have hl : (recentPaths m).length = 8 := by simp [recentPaths, hlen]
  refine ⟨hc, ?_, ?_, ?_, ?_, ?_⟩
  · rw [hc]
    split
    · next hmem => simp [List.length_erase_of_mem hmem, hl]
    · simp [hl]
  · intro i hi hfirst
    have hmem : some f ∈ recentPaths m := List.getElem?_mem hi
    rw [hc, if_pos hmem]
    obtain ⟨e1, e2⟩ := erase_first_getElem? (some f) (recentPaths m) i hi hfirst
    constructor
    · intro j hj
      simpa using e1 j hj
    · intro j hj
      cases j with
      | zero => omega
      | succ j => simpa using e2 j (by omega)
  · intro hmem j hj
    rw [hc, if_neg hmem]
    simp only [List.getElem?_cons_succ, List.getElem?_dropLast, hl]
    rw [if_pos (by omega)]
  · intro h0
    rw [first_path m hlen] at h0
    exact update_unchanged m f hf (Option.some.inj h0)
  · intro h0
    have h0' : (m.wTKOpenRecentMenu.getD 0 nullItem).user_data_ ≠ some f := by
      intro e
      exact h0 (by rw [first_path m hlen, e])
    obtain ⟨s1, s2⟩ := update_saved m f hf hlen h0'
    refine ⟨?_, s1, s2⟩
    intro e
    have : (recentPaths (UpdateRecentFileMenu m (some f)))[0]? = some (some f) := by
      rw [hc]; simp
    rw [e] at this
    exact h0 this

/-- C18 at a menu of three files, opening the third: it moves to the front,
the two before it move down, the rest stays, and the list is saved. -/
theorem UpdateRecentFileMenu_moves_to_front_witness :
    recentPaths (UpdateRecentFileMenu sampleMenu (some "/home/u/c.ns")) =
      [some "/home/u/c.ns", some "/home/u/a.ns", some "/home/u/b.ns", some "", some "",
        some "", some "", some ""] ∧
    (UpdateRecentFileMenu sampleMenu (some "/home/u/c.ns")).saves = 1 := by
  have h := UpdateRecentFileMenu_moves_to_front sampleMenu "/home/u/c.ns" (by decide) rfl
  refine ⟨?_, (h.2.2.2.2.2 (by decide)).2.1⟩
  rw [h.1]
  decide

/-- C19, evaluated where it fails: on a menu with three recent files
`ClearRecentFileMenu` empties only the first entry, its eight rounds all
writing to entry 0; the second and third path stay in the menu and are saved to
the preferences. -/
theorem ClearRecentFileMenu_keeps_paths :
    recentPaths sampleMenu =
      [some "/home/u/a.ns", some "/home/u/b.ns", some "/home/u/c.ns", some "", some "",
        some "", some "", some ""] ∧
    recentPaths (ClearRecentFileMenu sampleMenu) =
      [some "", some "/home/u/b.ns", some "/home/u/c.ns", some "", some "", some "", some "",
        some ""] ∧
    (ClearRecentFileMenu sampleMenu).preferences =
      [some "", some "/home/u/b.ns", some "/home/u/c.ns", some "", some "", some "", some "",
        some ""] ∧
    (ClearRecentFileMenu sampleMenu).saves = 1 := by
  decide

section Replace

variable (same : Char → Char → Bool) (find repl : List Char)

theorem matchesAt_length :
    ∀ (f t : List Char), matchesAt same f t = true → f.length ≤ t.length := by
  intro f
  induction f with
  | nil => intro t _; simp
  | cons s sp ih =>
    intro t h
    cases t with
    | nil => simp [matchesAt] at h
    | cons b bp =>
      simp only [matchesAt] at h
      split at h
      · have := ih bp h
        simp only [List.length_cons]
        omega
      · exact absurd h (by decide)

theorem replaceAllFrom_skip :
    ∀ (k : Nat) (text : List Char),
      replaceAllFrom same find repl k text = replaceAllFrom same find repl 0 (text.drop k) := by
  intro k
  induction k with
  | zero => intro text; rfl
  | succ k ih =>
    intro text
    cases text with
    | nil => rfl
    | cons c rest => rw [replaceAllFrom, ih, List.drop_succ_cons]

theorem replaceAll_nil : replaceAll same find repl [] = [] := rfl

theorem replaceAll_keep (c : Char) (rest : List Char)
    (h : matchesAt same find (c :: rest) = false) :
    replaceAll same find repl (c :: rest) = c :: replaceAll same find repl rest := by
  unfold replaceAll
  rw [replaceAllFrom, if_neg (by rw [h]; decide)]

theorem replaceAll_replace (hfind : find ≠ []) (text : List Char)
    (h : matchesAt same find text = true) :
    replaceAll same find repl text =
      repl ++ replaceAll same find repl (text.drop find.length) := by
  have hlen := matchesAt_length same find text h
  cases text with
  | nil =>
    cases find with
    | nil => exact absurd rfl hfind
    | cons s sp => simp at hlen
  | cons c rest =>
    unfold replaceAll
    rw [replaceAllFrom, if_pos h, replaceAllFrom_skip]
    cases find with
    | nil => exact absurd rfl hfind
    | cons s sp => simp

/-- What a search from position `p` on the remaining text gives, and what it
means for the text with all occurrences replaced. -/
theorem searchFrom_spec (hfind : find ≠ []) :
    ∀ (rest : List Char) (p : Nat),
      (searchFrom same find rest p = none ∧ replaceAll same find repl rest = rest) ∨
      ∃ before found, rest = before ++ found ∧
        searchFrom same find rest p = some (p + before.length) ∧
        matchesAt same find found = true ∧
        replaceAll same find repl rest =
          before ++ repl ++ replaceAll same find repl (found.drop find.length) := by
  intro rest
  induction rest with
  | nil => intro p; exact Or.inl ⟨rfl, rfl⟩
  | cons b rest ih =>
    intro p
    by_cases hm : matchesAt same find (b :: rest) = true
    · refine Or.inr ⟨[], b :: rest, rfl, ?_, hm, ?_⟩
      · rw [searchFrom, if_pos hm]; rfl
      · rw [replaceAll_replace same find repl hfind _ hm]; rfl
    · have hm' : matchesAt same find (b :: rest) = false := by simpa using hm
      rcases ih (p + 1) with ⟨h1, h2⟩ | ⟨before, found, h1, h2, h3, h4⟩
      · refine Or.inl ⟨?_, ?_⟩
        · rw [searchFrom, if_neg hm, h1]
        · rw [replaceAll_keep same find repl b rest hm', h2]
      · refine Or.inr ⟨b :: before, found, ?_, ?_, h3, ?_⟩
        · rw [h1]; rfl
        · rw [searchFrom, if_neg hm, h2, List.length_cons]
          congr 1
          omega
        · rw [replaceAll_keep same find repl b rest hm', h4]; rfl

/-- The loop of `UserActionReplaceAll` started behind the text `before`, with
`rest` still to search and more rounds than `rest` has characters, ends with
`before` followed by `rest` with all occurrences replaced. -/
theorem replaceLoop_spec (hfind : find ≠ []) :
    ∀ (fuel : Nat) (before rest : List Char), rest.length < fuel →
      replaceLoop same find repl fuel (before ++ rest) before.length =
        some (before ++ replaceAll same find repl rest) := by
  intro fuel
  induction fuel with
  | zero => intro before rest h; omega
  | succ fuel ih =>
    intro before rest hfuel
    have hs : search_forward same (before ++ rest) before.length find =
        searchFrom same find rest before.length := by
      unfold search_forward
      rw [List.drop_left]
    rw [replaceLoop, hs]
    rcases searchFrom_spec same find repl hfind rest before.length with
      ⟨h1, h2⟩ | ⟨pre, found, h1, h2, h3, h4⟩
    · rw [h1, h2]
    · rw [h2]
      have hlen := matchesAt_length same find found h3
      have hpos : 0 < find.length := List.length_pos.mpr hfind
      have e1 : remove_selection (before ++ rest) (before.length + pre.length)
          (before.length + pre.length + find.length) =
          (before ++ pre) ++ found.drop find.length := by
        unfold remove_selection
        rw [h1, ← List.append_assoc, ← List.length_append, List.take_left, List.drop_append]
      have e2 : buffer_insert ((before ++ pre) ++ found.drop find.length)
          (before.length + pre.length) repl =
          (before ++ pre ++ repl) ++ found.drop find.length := by
        unfold buffer_insert
        rw [← List.length_append, List.take_left, List.drop_left]
      have e3 : before.length + pre.length + repl.length = (before ++ pre ++ repl).length := by
        simp only [List.length_append]
      simp only [e1, e2, e3]
      rw [ih (before ++ pre ++ repl) (found.drop find.length) (by
        have : rest.length = pre.length + found.length := by rw [h1, List.length_append]
        rw [List.length_drop]
        omega)]
      rw [h4]
      simp only [List.append_assoc]

theorem replaceAll_related (hfind : find ≠ []) :
    ∀ (n : Nat) (text : List Char), text.length ≤ n →
      ReplacedAll same find repl text (replaceAll same find repl text) := by
  intro n
  induction n with
  | zero =>
    intro text h
    have : text = [] := List.length_eq_zero.mp (Nat.le_zero.mp h)
    subst this
    exact ReplacedAll.done
  | succ n ih =>
    intro text h
    cases text with
    | nil => exact ReplacedAll.done
    | cons c rest =>
      by_cases hm : matchesAt same find (c :: rest) = true
      · rw [replaceAll_replace same find repl hfind _ hm]
        refine ReplacedAll.replace _ _ hm (ih _ ?_)
        have hpos : 0 < find.length := List.length_pos.mpr hfind
        rw [List.length_drop]
        simp only [List.length_cons] at h ⊢
        omega
      · have hm' : matchesAt same find (c :: rest) = false := by simpa using hm
        rw [replaceAll_keep same find repl c rest hm']
        refine ReplacedAll.keep c rest _ hm' (ih rest ?_)
        simp only [List.length_cons] at h
        omega

theorem related_unique (hfind : find ≠ []) (text out : List Char)
    (h : ReplacedAll same find repl text out) : out = replaceAll same find repl text := by
  induction h with
  | done => rfl
  | keep c rest out hm _ ih => rw [replaceAll_keep same find repl c rest hm, ih]
  | replace text out hm _ ih => rw [replaceAll_replace same find repl hfind text hm, ih]

end Replace

/-- C21: `UserActionReplaceAll` terminates for every buffer, every non-empty
search text and every replacement text (also an empty one, or one that contains
the search text): with more rounds than the buffer has characters the loop
ends, and always with the same result. The resulting buffer is the original
with every non-overlapping occurrence of the search text, found left to right,
replaced by the replacement text; replacement text is not searched again. -/
theorem UserActionReplaceAll_replaces_all (lib : Fltk) (ui : FindPanel)
    (editor : TFLScriptEditor) (findText : String)
    (hfind : ui.wToolkitFindText = some findText) (hne : findText ≠ "") :
    ∃ result,
      (∀ fuel, editor.buffer.length < fuel →
        UserActionReplaceAll lib fuel ui editor = some result) ∧
      result.buffer = replaceAll (sameChar lib ui.wToolkitFindCase) findText.data
        ui.wToolkitReplaceText.data editor.buffer ∧
      ReplacedAll (sameChar lib ui.wToolkitFindCase) findText.data
        ui.wToolkitReplaceText.data editor.buffer result.buffer ∧
      ∀ out, ReplacedAll (sameChar lib ui.wToolkitFindCase) findText.data
        ui.wToolkitReplaceText.data editor.buffer out → out = result.buffer := by
  have hdata : findText.data ≠ [] := by
    intro h
    exact hne (String.ext h)
  have hloop : ∀ fuel, editor.buffer.length < fuel →
      replaceLoop (sameChar lib ui.wToolkitFindCase) findText.data ui.wToolkitReplaceText.data
        fuel editor.buffer 0 =
      some (replaceAll (sameChar lib ui.wToolkitFindCase) findText.data
        ui.wToolkitReplaceText.data editor.buffer) := by
    intro fuel hf
    have := replaceLoop_spec (sameChar lib ui.wToolkitFindCase) findText.data
      ui.wToolkitReplaceText.data hdata fuel [] editor.buffer hf
    simpa using this
  have hrel := replaceAll_related (sameChar lib ui.wToolkitFindCase) findText.data
    ui.wToolkitReplaceText.data hdata _ editor.buffer (Nat.le_refl _)
  have huniq := related_unique (sameChar lib ui.wToolkitFindCase) findText.data
    ui.wToolkitReplaceText.data hdata editor.buffer
  generalize replaceAll (sameChar lib ui.wToolkitFindCase) findText.data
    ui.wToolkitReplaceText.data editor.buffer = replaced at hloop hrel huniq ⊢
  refine ⟨⟨replaced, lib.utf8_align replaced
      (if lib.skip_lines replaced 0 (lib.count_lines editor.buffer 0 editor.insert_position) +
          (editor.insert_position - lib.line_start editor.buffer editor.insert_position) >
          lib.line_end replaced
            (lib.skip_lines replaced 0 (lib.count_lines editor.buffer 0 editor.insert_position))
        then lib.line_end replaced
          (lib.skip_lines replaced 0 (lib.count_lines editor.buffer 0 editor.insert_position))
        else lib.skip_lines replaced 0
            (lib.count_lines editor.buffer 0 editor.insert_position) +
          (editor.insert_position - lib.line_start editor.buffer editor.insert_position))⟩,
    ?_, rfl, hrel, huniq⟩
  intro fuel hf
  unfold UserActionReplaceAll
  simp only [hfind, hne, if_false, hloop fuel hf]

/-- C21 at a text of two lines, with a replacement that contains the search
text. -/
theorem UserActionReplaceAll_replaces_all_witness :
    ∃ result, UserActionReplaceAll sampleFltk 23 samplePanel sampleEditor = some result ∧
      result.buffer = "[foo] bar [foo][foo]\nfo [foo]d".data := by
  obtain ⟨result, h1, h2, -, -⟩ :=
    UserActionReplaceAll_replaces_all sampleFltk samplePanel sampleEditor "foo" rfl (by decide)
  refine ⟨result, h1 23 (by decide), ?_⟩
  rw [h2]
  decide

end Einstein
